import Mathlib

/-!
Shallow embedding of the erdetect evoked-response detection pipeline
(MultimodalNeuroimagingLab/erdetect) in Lean 4, together with theorems
checking the natural-language specification against the code.

Conventions used throughout:
* an IEEE-754 double is modelled as `Option ℚ`: `some q` is an ordinary
  value, `none` is the NaN / missing-value sentinel (the pipeline never
  relies on infinities or on values that ℚ cannot represent);
* a Python int is ℤ, a Python round is round-half-to-even;
* Python list/ndarray slicing is modelled by pySlice with the clamping and
  negative-index semantics of the CPython slice protocol;
* fallible code returns Except (an uncaught Python exception is the error
  case) and an error-return of a sentinel value such as (None, None) is a
  dedicated constructor of the result type;
* the square root over floats is passed in as an explicit function
  parameter (sqrt : ℚ → ℚ), keeping every definition computable; theorems
  quantify over it and witnesses instantiate it with a function that agrees
  with the mathematical square root on the inputs that actually occur.
-/

set_option maxRecDepth 4096

namespace ERDetect

/-- Model of an IEEE-754 double: some q is an ordinary value, none is NaN. -/
abbrev F := Option ℚ

/-- Test for the NaN sentinel (numpy isnan). -/
def fIsNaN (x : F) : Bool := x.isNone

/-- Python comparison x > c for a float x and a plain rational c:
false when x is NaN. -/
def fgt (x : F) (c : ℚ) : Bool :=
  match x with
  | some q => decide (c < q)
  | none => false

/-- Python comparison x >= c for a float x: false when x is NaN. -/
def fge (x : F) (c : ℚ) : Bool :=
  match x with
  | some q => decide (c ≤ q)
  | none => false

/-- Absolute value of a float; NaN maps to NaN. -/
def fabs (x : F) : F := x.map (fun q => |q|)

/-- Python float equality: NaN compares unequal to everything, itself
included. -/
def feq (x y : F) : Bool :=
  match x, y with
  | some a, some b => a == b
  | _, _ => false

/-- numpy max over a nonempty list of floats: a NaN anywhere makes the
result NaN (np.max propagates NaN). Empty input yields NaN here; every
call site guards against the empty case. -/
def pymax (l : List F) : F :=
  match l with
  | [] => none
  | x :: xs => xs.foldl (fun acc y =>
      match acc, y with
      | some a, some b => some (max a b)
      | _, _ => none) x

/-- Python round: round-half-to-even, as applied by int(round(x)). -/
def pyround (q : ℚ) : ℤ :=
  let f := ⌊q⌋
  let r := q - f
  if r < 1/2 then f
  else if 1/2 < r then f + 1
  else if f % 2 = 0 then f else f + 1

/-- Normalize one endpoint of a Python slice over a list of length n:
negative indices count from the end, and both ends are clamped to [0, n]. -/
def sliceNorm (n : ℕ) (i : ℤ) : ℕ :=
  if i < 0 then ((n : ℤ) + i).toNat else min i.toNat n

/-- Python slicing l[a:b] (step 1): the elements at the normalized
positions a' ≤ t < b'. -/
def pySlice (l : List α) (a b : ℤ) : List α :=
  (l.take (sliceNorm l.length b)).drop (sliceNorm l.length a)

/-- Whether absolute position t of a list of length n falls inside the
Python slice [a:b]. -/
def inSlicePos (n : ℕ) (a b : ℤ) (t : ℕ) : Bool :=
  decide (sliceNorm n a ≤ t) && decide (t < sliceNorm n b)

/-- List.map with access to the position, starting the position count
at i. -/
def mapWithIdx (f : ℕ → α → β) : ℕ → List α → List β
  | _, [] => []
  | i, x :: xs => f i x :: mapWithIdx f (i + 1) xs

/-- In-place write signal[np.isnan(signal)] = 0 performed through the
numpy view data[e, p, a:b]: every NaN inside the slice becomes 0, every
sample outside the slice is untouched. -/
def zeroNaNIn (row : List F) (a b : ℤ) : List F :=
  mapWithIdx (fun t x =>
    if inSlicePos row.length a b t && fIsNaN x then some 0 else x) 0 row

/-- numpy nanstd squared (the variance over the non-NaN entries, ddof 0).
Call sites guard against the all-NaN case; on it this returns the junk
value 0 (ℚ division by zero). -/
def nanvar (l : List F) : ℚ :=
  let vs := l.filterMap id
  let n : ℚ := vs.length
  let m := vs.sum / n
  (vs.map (fun x => (x - m) ^ 2)).sum / n

/-!
Embedding of ieeg_detect_n1 (src/app/detection.py).

The peak finder (app/peak_finder.py) is repository code that is not part
of the provided sources; per the specification it is a generic
local-extrema detector returning parallel arrays of sample indices and
signed magnitudes. It is modelled as an explicit function parameter
pf : List F → List (ℕ × F) returning the zipped (index, magnitude) pairs;
theorems quantify over it.
-/

/-- Decidable equality for Except results, used to evaluate the embedding
on concrete inputs. -/
instance instDecEqExcept [DecidableEq ε] [DecidableEq α] : DecidableEq (Except ε α)
  | .error a, .error b =>
    if h : a = b then isTrue (by subst h; rfl)
    else isFalse (fun hc => h (Except.error.inj hc))
  | .error _, .ok _ => isFalse (fun hc => Except.noConfusion hc)
  | .ok _, .error _ => isFalse (fun hc => Except.noConfusion hc)
  | .ok a, .ok b =>
    if h : a = b then isTrue (by subst h; rfl)
    else isFalse (fun hc => h (Except.ok.inj hc))

/-- Detection parameters as read from the configuration by
ieeg_detect_n1. -/
structure DetectParams where
  peakSearchEpoch : ℚ × ℚ
  n1SearchEpoch : ℚ × ℚ
  method : String
  baselineEpoch : ℚ × ℚ
  baselineThresholdFactor : ℚ
  crossProjThreshold : ℚ
  waveformThreshold : ℚ

/-- Removal of a spurious peak reported on the very first sample:
if a peak is found on the first sample, then that is not an actual peak,
remove (np.delete of index 0 from both parallel arrays). -/
def dropFirstSampleArtifact (ps : List (ℕ × F)) : List (ℕ × F) :=
  match ps with
  | [] => []
  | q :: rest => if q.1 = 0 then rest else q :: rest

/-- Peak selection of ieeg_detect_n1 on the (already zeroed) signal of one
cell: run the peak finder, drop a first-sample artifact, shift indices by
peak_search_start_sample, keep the peaks inside the N1 search range, and
pick the first peak of maximal absolute magnitude. Except.error models the
IndexError that Python raises at the argmax lookup when a NaN magnitude
makes every equality against np.max fail. -/
def selectPeak (pf : List F → List (ℕ × F)) (row2 : List F)
    (psStart psEnd n1Start n1End : ℤ) : Except Unit (Option (ℤ × F)) :=
  let peaks := dropFirstSampleArtifact (pf (pySlice row2 (psStart + 1) psEnd))
  if peaks.isEmpty then .ok none
  else
    let shifted := peaks.map (fun q => ((q.1 : ℤ) + psStart, q.2))
    let inRange := shifted.filter (fun q =>
      decide (n1Start ≤ q.1) && decide (q.1 ≤ n1End))
    if inRange.isEmpty then .ok none
    else
      match inRange.find? (fun q => feq (fabs q.2) (pymax (inRange.map (fun r => fabs r.2)))) with
      | some q => .ok (some q)
      | none => .error ()

/-- Clamping of the baseline standard deviation: make sure the
baseline_std is not smaller than 50uV (detection.py lines 228-230). -/
def clampStd (q : ℚ) : ℚ := if q < 50 then 50 else q

/-- Classification of the selected peak of one cell (detection.py lines
186-237 after the common polarity and saturation checks): returns the
pair of values stored into (n1_peak_indices, n1_peak_amplitudes) for the
cell, with (none, none) meaning the cell keeps its NaN no-detection
sentinel. bnds are the baseline sample bounds, only available when the
method is std_base (with any other method the std-base else-branch would
hit an unbound local in Python, modelled as Except.error); cpmCell and
wfmCell are the cell's metric entries, none when the metric tensor is
absent or the index is out of its range (Python raises there). -/
def classifyPeak (sqrt : ℚ → ℚ) (p : DetectParams) (bnds : Option (ℤ × ℤ))
    (cpmCell wfmCell : Option F) (row2 : List F) (idx : ℤ) (mag : F) :
    Except Unit (F × F) :=
  if fgt mag 0 then .ok (none, none)
  else if fgt (fabs mag) 3000 then .ok (none, none)
  else if p.method == "cross_proj" then
    match cpmCell with
    | none => .error ()
    | some v =>
      .ok (if fgt v p.crossProjThreshold then (some (idx : ℚ), mag) else (none, none))
  else if p.method == "waveform" then
    match wfmCell with
    | none => .error ()
    | some v =>
      .ok (if fgt v p.waveformThreshold then (some (idx : ℚ), mag) else (none, none))
  else
    match bnds with
    | none => .error ()
    | some bb =>
      let baseline := pySlice row2 bb.1 bb.2
      if baseline.all fIsNaN then .ok (none, none)
      else
        .ok (if fge (fabs mag) (p.baselineThresholdFactor * |clampStd (sqrt (nanvar baseline))|) then
              (some (idx : ℚ), mag) else (none, none))

/-- Processing of one electrode/stim-pair cell of ieeg_detect_n1 (the body
of the double loop, detection.py lines 148-237). Returns the cell's
(peak-index output, peak-amplitude output, signal row after the in-place
NaN zeroing). -/
def processCell (pf : List F → List (ℕ × F)) (sqrt : ℚ → ℚ) (p : DetectParams)
    (psStart psEnd n1Start n1End : ℤ) (bnds : Option (ℤ × ℤ))
    (cpmCell wfmCell : Option F) (row : List F) :
    Except Unit (F × F × List F) :=
  if (pySlice row (psStart + 1) psEnd).all fIsNaN then .ok (none, none, row)
  else
    let row2 := zeroNaNIn row (psStart + 1) psEnd
    match selectPeak pf row2 psStart psEnd n1Start n1End with
    | .error _ => .error ()
    | .ok none => .ok (none, none, row2)
    | .ok (some (idx, mag)) =>
      (classifyPeak sqrt p bnds cpmCell wfmCell row2 idx mag).map
        (fun r => (r.1, r.2, row2))

/-- Look up one cell of an optional (electrode × stim-pair) metric tensor:
none when the tensor itself is absent or the indices fall outside it
(either case raises in Python when the value is needed). -/
def metricCell (m : Option (List (List F))) (e p : ℕ) : Option F :=
  match m with
  | none => none
  | some rows => (rows[e]?).bind (fun r => r[p]?)

/-- Inner loop of ieeg_detect_n1 over the stim-pairs of one electrode. -/
def detectPairCells (pf : List F → List (ℕ × F)) (sqrt : ℚ → ℚ)
    (p : DetectParams) (psStart psEnd n1Start n1End : ℤ)
    (bnds : Option (ℤ × ℤ)) (cpm wfm : Option (List (List F))) (e : ℕ) :
    ℕ → List (List F) → Except Unit (List (F × F × List F))
  | _, [] => .ok []
  | pr, row :: rest => do
    let c ← processCell pf sqrt p psStart psEnd n1Start n1End bnds
      (metricCell cpm e pr) (metricCell wfm e pr) row
    let cs ← detectPairCells pf sqrt p psStart psEnd n1Start n1End bnds cpm wfm e (pr + 1) rest
    .ok (c :: cs)

/-- Outer loop of ieeg_detect_n1 over the electrodes. -/
def detectCells (pf : List F → List (ℕ × F)) (sqrt : ℚ → ℚ)
    (p : DetectParams) (psStart psEnd n1Start n1End : ℤ)
    (bnds : Option (ℤ × ℤ)) (cpm wfm : Option (List (List F))) :
    ℕ → List (List (List F)) → Except Unit (List (List (F × F × List F)))
  | _, [] => .ok []
  | e, prows :: rest => do
    let r ← detectPairCells pf sqrt p psStart psEnd n1Start n1End bnds cpm wfm e 0 prows
    let rs ← detectCells pf sqrt p psStart psEnd n1Start n1End bnds cpm wfm (e + 1) rest
    .ok (r :: rs)

/-- Result of ieeg_detect_n1: retNone is the (None, None) error return,
pyCrash an uncaught Python exception; ok carries the two
(electrode × stim-pair) output buffers and the input tensor after the
in-place NaN zeroing. -/
inductive DetectResult where
  | retNone
  | pyCrash
  | ok (indices amps : List (List F)) (newData : List (List (List F)))
deriving DecidableEq

/-- data.shape[2] of the (electrode × stim-pair × time) tensor; numpy
arrays are rectangular, so the first row is representative. -/
def numSamples (data : List (List (List F))) : ℕ :=
  ((data.head?.getD []).head?.getD []).length

/-- The (electrode, stim-pair) shape of a 2-D tensor. -/
def shape2 (m : List (List F)) : ℕ × ℕ := (m.length, (m.head?.getD []).length)

/-- The leading (electrode, stim-pair) shape of the data tensor, the shape
of the output buffers n1_peak_indices / n1_peak_amplitudes. -/
def dataShape12 (data : List (List (List F))) : ℕ × ℕ :=
  (data.length, (data.head?.getD []).length)

/-- peak_search_start_sample = int(round(peak_search_epoch[0] *
sampling_rate)) + stim_onset_index. -/
def peakSearchStart (p : DetectParams) (sr : ℚ) (onset : ℤ) : ℤ :=
  pyround (p.peakSearchEpoch.1 * sr) + onset

/-- peak_search_end_sample. -/
def peakSearchEnd (p : DetectParams) (sr : ℚ) (onset : ℤ) : ℤ :=
  pyround (p.peakSearchEpoch.2 * sr) + onset

/-- n1_search_start_sample. -/
def n1SearchStart (p : DetectParams) (sr : ℚ) (onset : ℤ) : ℤ :=
  pyround (p.n1SearchEpoch.1 * sr) + onset

/-- n1_search_end_sample. -/
def n1SearchEnd (p : DetectParams) (sr : ℚ) (onset : ℤ) : ℤ :=
  pyround (p.n1SearchEpoch.2 * sr) + onset

/-- baseline_start_sample (std_base method). -/
def baselineStart (p : DetectParams) (sr : ℚ) (onset : ℤ) : ℤ :=
  pyround (p.baselineEpoch.1 * sr) + onset

/-- baseline_end_sample (std_base method). -/
def baselineEnd (p : DetectParams) (sr : ℚ) (onset : ℤ) : ℤ :=
  pyround (p.baselineEpoch.2 * sr) + onset

/-- Element of a 2-D (electrode × stim-pair) buffer at position (e, p). -/
def get2 (m : List (List α)) (e p : ℕ) : Option α :=
  (m[e]?).bind (fun r => r[p]?)

/-- The baseline sample bounds handed to the per-cell processing: only
computed when the method is std_base (detection.py lines 118-122). -/
def detectBnds (p : DetectParams) (sr : ℚ) (onset : ℤ) : Option (ℤ × ℤ) :=
  if p.method == "std_base"
  then some (baselineStart p sr onset, baselineEnd p sr onset)
  else none

/-- Embedding of ieeg_detect_n1 (src/app/detection.py). Mirrors the
source: parameter-window validation, then the method-specific metric
validation (note that the source checks waveform_metrics in the
cross_proj branch as well), then the per-cell double loop. -/
def ieegDetectN1 (pf : List F → List (ℕ × F)) (sqrt : ℚ → ℚ)
    (p : DetectParams) (data : List (List (List F)))
    (stimOnsetIndex : ℤ) (sr : ℚ)
    (crossProjMetrics waveformMetrics : Option (List (List F))) : DetectResult :=
  if peakSearchEnd p sr stimOnsetIndex < peakSearchStart p sr stimOnsetIndex then .retNone
  else if (numSamples data : ℤ) < peakSearchEnd p sr stimOnsetIndex then .retNone
  else if n1SearchEnd p sr stimOnsetIndex < n1SearchStart p sr stimOnsetIndex then .retNone
  else if p.method == "waveform" &&
      (waveformMetrics.isNone ||
       !(decide (shape2 (waveformMetrics.getD []) = dataShape12 data))) then .retNone
  else if p.method == "cross_proj" &&
      (waveformMetrics.isNone ||
       !(decide (shape2 (waveformMetrics.getD []) = dataShape12 data))) then .retNone
  else
    match detectCells pf sqrt p (peakSearchStart p sr stimOnsetIndex)
        (peakSearchEnd p sr stimOnsetIndex) (n1SearchStart p sr stimOnsetIndex)
        (n1SearchEnd p sr stimOnsetIndex) (detectBnds p sr stimOnsetIndex)
        crossProjMetrics waveformMetrics 0 data with
    | .error _ => .pyCrash
    | .ok cells =>
      .ok (cells.map (fun r => r.map (fun c => c.1)))
          (cells.map (fun r => r.map (fun c => c.2.1)))
          (cells.map (fun r => r.map (fun c => c.2.2)))

/-- The mutated data tensor of a successful detection run. -/
def resData : DetectResult → List (List (List F))
  | .ok _ _ d => d
  | _ => []

/-- The n1_peak_indices buffer of a successful detection run. -/
def resInds : DetectResult → List (List F)
  | .ok a _ _ => a
  | _ => []

/-- The n1_peak_amplitudes buffer of a successful detection run. -/
def resAmps : DetectResult → List (List F)
  | .ok _ b _ => b
  | _ => []

/-!
Concrete fixtures used by witnesses and counterexamples. With sampling
rate 2 and stimulation-onset sample 5: the peak-search epoch (0, 1) maps
to samples 5..7, the N1-search epoch (0, 1) to 5..7 and the std_base
baseline epoch (-1, 0) to samples 3..5. wRow has baseline samples 0 and
20, whose nanstd is sqrt 100 = 10, below the clamping floor of 50, so the
std_base threshold is 3.4 * 50 = 170.
-/

/-- Fixture: std_base detection parameters (the configuration defaults
except for windows scaled to a tiny epoch). -/
def wStdP : DetectParams :=
  { peakSearchEpoch := (0, 1), n1SearchEpoch := (0, 1), method := "std_base",
    baselineEpoch := (-1, 0), baselineThresholdFactor := 34/10,
    crossProjThreshold := 35/10, waveformThreshold := 1000 }

/-- Fixture: cross_proj detection parameters. -/
def wCrossP : DetectParams :=
  { peakSearchEpoch := (0, 1), n1SearchEpoch := (0, 1), method := "cross_proj",
    baselineEpoch := (-1, 0), baselineThresholdFactor := 34/10,
    crossProjThreshold := 35/10, waveformThreshold := 1000 }

/-- Fixture: a signal row of 8 samples with baseline samples (3 and 4)
holding 0 and 20. -/
def wRow : List F := [some 0, some 0, some 0, some 0, some 20, some 0, some 0, some 0]

/-- Fixture: a signal row that is entirely NaN. -/
def wRowNaN : List F := [none, none, none, none, none, none, none, none]

/-- Fixture: a square-root function agreeing with the mathematical square
root on the variances occurring in the fixtures. -/
def wSqrt : ℚ → ℚ := fun q => if q = 100 then 10 else 0

/-- Fixture: a peak finder reporting a single trough of the given
magnitude at slice position 1 (absolute sample 6 after the shift). -/
def wPf (m : ℚ) : List F → List (ℕ × F) := fun _ => [(1, some m)]

/-- Fixture: std_base parameters with the peak-search epoch (0, 1.5), so
that with sampling rate 2 and onset 5 the peak-search slice covers
samples 6..7. -/
def w9p : DetectParams :=
  { peakSearchEpoch := (0, 3/2), n1SearchEpoch := (0, 1), method := "std_base",
    baselineEpoch := (-1, 0), baselineThresholdFactor := 34/10,
    crossProjThreshold := 35/10, waveformThreshold := 1000 }

/-- Fixture: a signal row with an isolated NaN at sample 6, inside the
w9p peak-search slice. -/
def w9row : List F := [some 0, some 0, some 0, some 0, some 20, some 0, none, some 0]

/-!
Embedding of the stimulation-pair condition construction of the
orchestration pipeline (src/erdetect/_erdetect.py, process_subset lines
215-254; the legacy flow in src/main_run.py lines 396-437 builds the same
conditions with parallel lists instead of dicts). A Python dict with
string keys is modelled as an association list with unique keys in
insertion order.
-/

/-- Python dict lookup d[k] (None when absent). -/
def dictGet (d : List (String × α)) (k : String) : Option α :=
  (d.find? (fun kv => kv.1 == k)).map (fun kv => kv.2)

/-- Python dict assignment d[k] = v: overwrite in place when the key
exists, append otherwise. -/
def dictSet (d : List (String × α)) (k : String) (v : α) : List (String × α) :=
  if d.any (fun kv => kv.1 == k) then
    d.map (fun kv => if kv.1 == k then (k, v) else kv)
  else d ++ [(k, v)]

/-- Python del d[k]. -/
def dictDel (d : List (String × α)) (k : String) : List (String × α) :=
  d.filter (fun kv => !(kv.1 == k))

/-- channels_stim_incl[i] (the loops only use in-range indices; the
default is irrelevant). -/
def chGet (channels : List String) (i : ℕ) : String := channels.getD i ""

/-- The condition name channels[i0] + '-' + channels[i1]. -/
def pairLabel (channels : List String) (i0 i1 : ℕ) : String :=
  chGet channels i0 ++ "-" ++ chGet channels i1

/-- Trial-pair match ignoring pair order (concat_bidirectional_pairs). -/
def matchesBidir (a b : String) (x : String × String) : Bool :=
  (x.1 == a && x.2 == b) || (x.1 == b && x.2 == a)

/-- Ordered trial-pair match. -/
def matchesDir (a b : String) (x : String × String) : Bool :=
  x.1 == a && x.2 == b

/-- The onsets of the trials selected for the loop iteration (i0, i1): a
trial is a ((first stim channel, second stim channel), onset) record. -/
def stimPairSel (concat : Bool) (channels : List String)
    (trials : List ((String × String) × ℚ)) (i0 i1 : ℕ) : List ℚ :=
  if concat then
    if i1 < i0 then []
    else (trials.filter (fun t =>
      matchesBidir (chGet channels i0) (chGet channels i1) t.1)).map (fun t => t.2)
  else (trials.filter (fun t =>
    matchesDir (chGet channels i0) (chGet channels i1) t.1)).map (fun t => t.2)

/-- One iteration of the double loop: add the pair if there are trials
for it. -/
def stimPairStep (concat : Bool) (channels : List String)
    (trials : List ((String × String) × ℚ))
    (d : List (String × List ℚ)) (p : ℕ × ℕ) : List (String × List ℚ) :=
  let sel := stimPairSel concat channels trials p.1 p.2
  if 0 < sel.length then dictSet d (pairLabel channels p.1 p.2) sel else d

/-- The iteration order of the nested loops over all channel index
combinations (lexicographic, outer iChannel0, inner iChannel1). -/
def allIndexPairs (n : ℕ) : List (ℕ × ℕ) :=
  (List.range n).flatMap (fun i0 => (List.range n).map (fun i1 => (i0, i1)))

/-- The stim_pairs_onsets dict after the double loop, before the
minimum-trial filter. -/
def buildStimPairsPre (concat : Bool) (channels : List String)
    (trials : List ((String × String) × ℚ)) : List (String × List ℚ) :=
  (allIndexPairs channels.length).foldl (stimPairStep concat channels trials) []

/-- The stim_pairs_onsets dict after removing the stimulus-pairs with too
few trials (collect the below-minimum keys, then delete them). -/
def buildStimPairs (concat : Bool) (channels : List String)
    (trials : List ((String × String) × ℚ)) (minTrials : ℕ) :
    List (String × List ℚ) :=
  let pre := buildStimPairsPre concat channels trials
  let removeKeys := (pre.filter (fun kv => kv.2.length < minTrials)).map (fun kv => kv.1)
  removeKeys.foldl dictDel pre

/-!
Embedding of the strategy dispatch of load_data_epochs_averages
(src/utils/bids.py lines 238-277) and of the reader-access order of the
two averaging strategies. The strategies themselves are large imperative
loops; what distinguishes them observably is which data-reader retrieval
calls they make and in which order, so they are embedded here as the
trace of retrieve_sample_range_data calls issued by the source loops for
in-bounds trials (by_condition_trial: bids.py lines 619-698, one
all-channel range read per condition-trial; by_channel_condition_trial
via its per-channel helper: bids.py lines 806-887, a baseline range read
and a trial range read of a single channel per channel-condition-trial).
The per-trial bounds handling and data arithmetic shared with
load_data_epochs is embedded separately (epochChannelData below).
-/

/-- The two sub-strategies of load_data_epochs_averages. -/
inductive AvgStrategy where
  | byConditionTrial
  | byChannelConditionTrial
deriving DecidableEq

/-- The strategy selected by load_data_epochs_averages for a reader's
data_format (0 = EDF, 1 = BrainVision, 2 = MEF3); none models the
fall-through for any other tag (metric_values is then unbound). -/
def loadDataEpochAveragesStrategy (dataFormat : ℕ) : Option AvgStrategy :=
  if dataFormat = 0 ∨ dataFormat = 1 then some .byChannelConditionTrial
  else if dataFormat = 2 then some .byConditionTrial
  else none

/-- A data-reader retrieval call. -/
inductive ReadEvent where
  | rangeAll (channels : List String) (startSample stopSample : ℤ)
  | range1 (channel : String) (startSample stopSample : ℤ)
deriving DecidableEq

/-- trial_sample_start = int(round((onset + trial_epoch[0]) *
sampling_rate)). -/
def trialStartSample (sr tep0 : ℚ) (onset : ℚ) : ℤ := pyround ((onset + tep0) * sr)

/-- Reader calls of __load_data_epoch_averages__by_condition_trial:
condition is the outermost loop, and each trial of a condition issues one
retrieve_sample_range_data call covering all requested channels. -/
def traceByConditionTrial (channels : List String) (conds : List (List ℚ))
    (sr tep0 : ℚ) (trialNumSamples : ℕ) : List ReadEvent :=
  conds.foldl (fun acc onsets => onsets.foldl (fun acc2 o =>
    acc2 ++ [.rangeAll channels (trialStartSample sr tep0 o)
      (trialStartSample sr tep0 o + trialNumSamples)]) acc) []

/-- Reader calls of
__subload_data_epoch_averages__from_channel__by_condition_trials for one
channel: conditions outer, trials inner, and each trial issues a
baseline range read followed by a trial range read of that channel. -/
def traceSubloadChannel (ch : String) (conds : List (List ℚ))
    (sr tep0 bep0 : ℚ) (trialNumSamples baselineNumSamples : ℕ) : List ReadEvent :=
  conds.foldl (fun acc onsets => onsets.foldl (fun acc2 o =>
    acc2 ++ [.range1 ch (trialStartSample sr bep0 o)
       (trialStartSample sr bep0 o + baselineNumSamples),
     .range1 ch (trialStartSample sr tep0 o)
       (trialStartSample sr tep0 o + trialNumSamples)]) acc) []

/-- Reader calls of __load_data_epoch_averages__by_channel_condition_trial:
channel is the outermost loop, delegating per channel to the subload
helper, so only one channel's temporary buffer exists at a time. -/
def traceByChannelConditionTrial (channels : List String) (conds : List (List ℚ))
    (sr tep0 bep0 : ℚ) (trialNumSamples baselineNumSamples : ℕ) : List ReadEvent :=
  channels.foldl (fun acc ch =>
    acc ++ traceSubloadChannel ch conds sr tep0 bep0 trialNumSamples baselineNumSamples) []

/-- The keys of a dict. -/
def dictKeys (d : List (String × α)) : List String := d.map (fun kv => kv.1)

/-! ### metric_cross_proj (erdetect/core/metrics/metric_cross_proj.py)

The function receives a (trials x samples) data matrix and baseline
matrix; the configuration values it reads (trial_epoch start,
cross_proj epoch, trials.baseline_norm) are parameters here, as is the
square root. An uncaught Python exception (here the UnboundLocalError
on metric_data when baseline_norm matches no branch) is Except.error.
-/

/-- Float addition: NaN propagates. -/
def fadd (x y : F) : F := x.bind (fun a => y.map (fun b => a + b))

/-- Float subtraction: NaN propagates. -/
def fsub (x y : F) : F := x.bind (fun a => y.map (fun b => a - b))

/-- Float multiplication as used here: NaN propagates (no 0 * inf case
arises since F has no infinities). -/
def fmul (x y : F) : F := x.bind (fun a => y.map (fun b => a * b))

/-- Float division as used in metric_cross_proj: NaN propagates. The
zero-divisor case is mapped to NaN; in the source every zero norm has
already been replaced by NaN before the division, so this case never
arises there. -/
def fdiv (x y : F) : F :=
  x.bind (fun a => y.bind (fun b => if b = 0 then none else some (a / b)))

/-- numpy sum (not nansum) over a row: any NaN makes the sum NaN. -/
def fsum (l : List F) : F := l.foldl fadd (some 0)

/-- numpy nanmean over a row: mean of the non-NaN entries, NaN if all
entries are NaN. -/
def nanmean (l : List F) : F :=
  let vs := l.filterMap id
  if vs.length = 0 then none else some (vs.sum / (vs.length : ℚ))

/-- Insertion into a sorted list of rationals (ascending). -/
def insertSorted (q : ℚ) : List ℚ → List ℚ
  | [] => [q]
  | x :: xs => if q ≤ x then q :: x :: xs else x :: insertSorted q xs

/-- Ascending sort of a list of rationals. -/
def sortQ (l : List ℚ) : List ℚ := l.foldr insertSorted []

/-- numpy nanmedian over a row: median of the non-NaN entries (mean of
the two middle entries for even counts), NaN if all entries are NaN. -/
def nanmedian (l : List F) : F :=
  let vs := sortQ (l.filterMap id)
  let n := vs.length
  if n = 0 then none
  else if n % 2 = 1 then some (vs.getD (n / 2) 0)
  else some ((vs.getD (n / 2 - 1) 0 + vs.getD (n / 2) 0) / 2)

/-- The baseline-normalization branch of metric_cross_proj (lines
41-47): slice each trial row to the cross-projection window and
subtract the trial's baseline nanmean (modes mean/average) or
nanmedian (mode median); any other mode leaves metric_data unassigned,
so the first later use raises UnboundLocalError (modelled as error). -/
def crossProjMetricData (baseline_norm : String) (data baseline : List (List F))
    (startSample endSample : ℤ) : Except Unit (List (List F)) :=
  if baseline_norm.toLower = "mean" ∨ baseline_norm.toLower = "average" then
    .ok (List.zipWith (fun drow brow =>
      (pySlice drow startSample endSample).map (fun x => fsub x (nanmean brow)))
      data baseline)
  else if baseline_norm.toLower = "median" then
    .ok (List.zipWith (fun drow brow =>
      (pySlice drow startSample endSample).map (fun x => fsub x (nanmedian brow)))
      data baseline)
  else .error ()

/-- Per-trial L2 norms: sqrt of the sum of squares of each row (NaN
propagates through the sum and through sqrt). -/
def l2norms (sqrt : ℚ → ℚ) (md : List (List F)) : List F :=
  md.map (fun row => (fsum (row.map (fun x => fmul x x))).map sqrt)

/-- norm_matrix[norm_matrix == 0] = np.nan: exact zeros become NaN
(NaN == 0 is already false, so NaN entries are untouched). -/
def zeroToNaN (norms : List F) : List F :=
  norms.map (fun x => if x = some 0 then none else x)

/-- np.matmul(a, b.T): entry (i, j) is the dot product of row i of a
with row j of b. -/
def matmulT (a b : List (List F)) : List (List F) :=
  a.map (fun arow => b.map (fun brow => fsum (List.zipWith fmul arow brow)))

/-- The entries strictly above the diagonal in row-major order
(np.triu_indices(n, 1)). -/
def upperTriangle (m : List (List F)) : List F :=
  (mapWithIdx (fun i row =>
    (mapWithIdx (fun j x => if i < j then [x] else []) 0 row).flatten) 0 m).flatten

/-- scipy.stats.ttest_1samp(values, 0): mean divided by the standard
error (sample std, ddof 1, over sqrt n). NaN inputs propagate; a
sample of size at most 1, or a zero standard deviation, yields a
non-finite statistic, modelled as NaN. -/
def ttest1samp (sqrt : ℚ → ℚ) (values : List F) : F :=
  let n := values.length
  if n ≤ 1 then none
  else
    (fsum values).bind (fun s =>
      let m := s / (n : ℚ)
      (fsum (values.map (fun x => x.map (fun q => (q - m) ^ 2)))).bind (fun ssq =>
        let sd := sqrt (ssq / ((n : ℚ) - 1))
        if sd = 0 then none else some (m / (sd / sqrt (n : ℚ)))))

/-- metric_cross_proj (metric_cross_proj.py lines 19-66). -/
def metric_cross_proj (sqrt : ℚ → ℚ) (sampling_rate : ℚ)
    (trial_epoch0 cross_proj_epoch0 cross_proj_epoch1 : ℚ)
    (baseline_norm : String) (data baseline : List (List F)) : Except Unit F :=
  let start_sample := pyround ((cross_proj_epoch0 - trial_epoch0) * sampling_rate)
  let end_sample := pyround ((cross_proj_epoch1 - trial_epoch0) * sampling_rate)
  match crossProjMetricData baseline_norm data baseline start_sample end_sample with
  | .error e => .error e
  | .ok metric_data =>
    let norm_matrix := zeroToNaN (l2norms sqrt metric_data)
    let norm_metric_data :=
      List.zipWith (fun row nv => row.map (fun x => fdiv x nv)) metric_data norm_matrix
    let proj := matmulT norm_metric_data metric_data
    .ok (ttest1samp sqrt (upperTriangle proj))

/-- Whether an Except value is a success. -/
def exceptIsOk : Except ε α → Bool
  | .ok _ => true
  | .error _ => false

/-! ### Epoching with out-of-bound handling (utils/bids.py lines 344-415)

__epoch_data__from_channel_data__by_trials fills one channel's plane of
the NaN-prefilled output buffer, trial by trial. We model the plane for
a single channel: each trial either raises (RuntimeError, the whole
call fails), is skipped with a warning (continue: its row stays at the
NaN prefill) or writes channel_data[trial_sample_start:trial_sample_end]
into row positions local_start..local_end (out-of-range positions keep
the NaN prefill). out_of_bound_method: 0 = error, 1 = first_last_only,
2 = allow. The Bool in the result records whether a warning was logged
(the source logs only for channel 0; we model one channel). -/

structure EpochCtx where
  sr : ℚ
  tep0 : ℚ
  bep0 : ℚ
  trialNumSamples : ℕ
  baselineNumSamples : ℕ
  baselineMethod : ℕ
  outOfBoundMethod : ℕ
deriving DecidableEq

/-- trial_sample_start = int(round((onset + trial_epoch[0]) * sampling_rate)). -/
def trialSampleStart (c : EpochCtx) (onset : ℚ) : ℤ := pyround ((onset + c.tep0) * c.sr)

/-- trial_sample_end = trial_sample_start + trial_num_samples. -/
def trialSampleEnd (c : EpochCtx) (onset : ℚ) : ℤ :=
  trialSampleStart c onset + (c.trialNumSamples : ℤ)

/-- baseline_start_sample = int(round((onset + baseline_epoch[0]) * sampling_rate)). -/
def baselineSampleStart (c : EpochCtx) (onset : ℚ) : ℤ := pyround ((onset + c.bep0) * c.sr)

/-- baseline_end_sample = baseline_start_sample + baseline_num_samples. -/
def baselineSampleEnd (c : EpochCtx) (onset : ℚ) : ℤ :=
  baselineSampleStart c onset + (c.baselineNumSamples : ℤ)

/-- row[a:b] = vals (numpy slice assignment with 0 <= a <= b <= row length
in the source); positions outside a..b keep their old value. -/
def writeSliceN (row : List α) (a b : ℕ) (vals : List α) : List α :=
  mapWithIdx (fun k x => if a ≤ k ∧ k < b then vals.getD (k - a) x else x) 0 row

/-- Baseline normalization of the extracted trial values (lines 403-412):
method 0 copies, 1 subtracts the baseline nanmean, 2 the nanmedian. -/
def baselineAdjust (c : EpochCtx) (cd : List F) (bss bse : ℤ) (v : List F) : List F :=
  if c.baselineMethod = 1 then v.map (fun x => fsub x (nanmean (pySlice cd bss bse)))
  else if c.baselineMethod = 2 then v.map (fun x => fsub x (nanmedian (pySlice cd bss bse)))
  else v

/-- One iteration of the trial loop (lines 350-412) for one channel:
the four bound checks in source order, the baseline bound check, then
the slice write. Returns the trial's row and the warning flag, or an
error for an uncaught RuntimeError. -/
def epochTrial (c : EpochCtx) (cd : List F) (numOnsets trialIdx : ℕ) (onset : ℚ) :
    Except Unit (List F × Bool) :=
  let tss := trialSampleStart c onset
  let tse := trialSampleEnd c onset
  let bss := baselineSampleStart c onset
  let bse := baselineSampleEnd c onset
  let size : ℤ := (cd.length : ℤ)
  let prefill : List F := List.replicate c.trialNumSamples (none : F)
  let tolFirst := (c.outOfBoundMethod = 1 ∧ trialIdx = 0) ∨ c.outOfBoundMethod = 2
  let tolLast := (c.outOfBoundMethod = 1 ∧ trialIdx = numOnsets - 1) ∨ c.outOfBoundMethod = 2
  if tse < 0 then
    if tolFirst then .ok (prefill, true) else .error ()
  else
    match (if tss < 0 then
            (if tolFirst then Except.ok ((0 : ℤ), ((-tss).toNat, true))
             else Except.error ())
           else Except.ok (tss, (0, false))) with
    | .error _ => .error ()
    | .ok (tss1, localStart, w1) =>
      if tss1 > size then
        if tolLast then .ok (prefill, true) else .error ()
      else
        match (if tse > size then
                (if tolLast then
                  Except.ok (size, (c.trialNumSamples - (tse - size).toNat, true))
                 else Except.error ())
               else Except.ok (tse, (c.trialNumSamples, false))) with
        | .error _ => .error ()
        | .ok (tse1, localEnd, w2) =>
          if 0 < c.baselineMethod ∧ (bss < 0 ∨ bse > size) then .error ()
          else
            .ok (writeSliceN prefill localStart localEnd
                  (baselineAdjust c cd bss bse (pySlice cd tss1 tse1)), w1 || w2)

/-- The trial loop from a given trial index, collecting the per-trial
rows and whether any warning was logged; a raise aborts the rest. -/
def epochChannelTrialsFrom (c : EpochCtx) (cd : List F) (numOnsets : ℕ) :
    ℕ → List ℚ → Except Unit (List (List F) × Bool)
  | _, [] => .ok ([], false)
  | i, o :: rest =>
    match epochTrial c cd numOnsets i o with
    | .error _ => .error ()
    | .ok (row, w) =>
      match epochChannelTrialsFrom c cd numOnsets (i + 1) rest with
      | .error _ => .error ()
      | .ok (rows, wr) => .ok (row :: rows, w || wr)

/-- __epoch_data__from_channel_data__by_trials for one channel. -/
def epochChannelTrials (c : EpochCtx) (cd : List F) (onsets : List ℚ) :
    Except Unit (List (List F) × Bool) :=
  epochChannelTrialsFrom c cd onsets.length 0 onsets

/-! ### Configuration (app/config.py)

JSON values as parsed by json.load keep Python's int/float
distinction. The in-memory configuration dictionary has a fixed shape,
modelled as a structure; the method-specific sub-dictionary entries
can be left absent by a load, so they are Options (none = key absent,
and reading an absent key raises KeyError). A Python exception
escaping a function is Except.error. -/

inductive PyNum
  | pint (n : ℤ)
  | pfloat (q : ℚ)
deriving DecidableEq

/-- The numeric value; Python compares int and float by exact value. -/
def PyNum.toQ : PyNum → ℚ
  | .pint n => (n : ℚ)
  | .pfloat q => q

inductive JVal
  | jnull
  | jbool (b : Bool)
  | jnum (x : PyNum)
  | jstr (s : String)
  | jarr (elems : List JVal)
  | jobj (fields : List (String × JVal))

/-- The configuration dictionary built by __create_default_config
(config.py lines 32-88) and maintained by load_config. -/
structure Config where
  highPass : Bool
  lineNoiseRemoval : String
  earlyRerefEnabled : Bool
  earlyRerefMethod : String
  earlyRerefStimExclEpoch : PyNum × PyNum
  trialEpoch : PyNum × PyNum
  outOfBoundsHandling : String
  baselineEpoch : PyNum × PyNum
  baselineNorm : String
  concatBidirectionalPairs : Bool
  minimumStimpairTrials : ℤ
  channelTypes : List String
  crossProjEnabled : Bool
  crossProjEpoch : PyNum × PyNum
  waveformEnabled : Bool
  waveformEpoch : PyNum × PyNum
  waveformBandpass : PyNum × PyNum
  peakSearchEpoch : PyNum × PyNum
  n1SearchEpoch : PyNum × PyNum
  method : String
  stdBaseBaselineEpoch : Option (PyNum × PyNum)
  stdBaseBaselineThresholdFactor : Option ℚ
  crossProjThreshold : Option ℚ
  waveformThreshold : Option ℚ
  xAxisEpoch : PyNum × PyNum
  blankStimEpoch : PyNum × PyNum
  generateElectrodeImages : Bool
  generateStimpairImages : Bool
  generateMatrixImages : Bool
deriving DecidableEq

/-- __create_default_config (config.py lines 32-88): the literals keep
Python's int/float spelling from the source (e.g. (10, 30) are ints,
(0, 0.5) mixes an int and a float). -/
def defaultConfig : Config where
  highPass := false
  lineNoiseRemoval := "off"
  earlyRerefEnabled := false
  earlyRerefMethod := "CAR"
  earlyRerefStimExclEpoch := (.pfloat (-1/100), .pfloat 1)
  trialEpoch := (.pfloat (-1), .pfloat 2)
  outOfBoundsHandling := "first_last_only"
  baselineEpoch := (.pfloat (-1/2), .pfloat (-1/10))
  baselineNorm := "median"
  concatBidirectionalPairs := true
  minimumStimpairTrials := 5
  channelTypes := ["ECOG", "SEEG", "DBS"]
  crossProjEnabled := true
  crossProjEpoch := (.pfloat (3/250), .pfloat (9/100))
  waveformEnabled := true
  waveformEpoch := (.pfloat (3/250), .pfloat (9/100))
  waveformBandpass := (.pint 10, .pint 30)
  peakSearchEpoch := (.pint 0, .pfloat (1/2))
  n1SearchEpoch := (.pfloat (9/1000), .pfloat (9/100))
  method := "std_base"
  stdBaseBaselineEpoch := some (.pint (-1), .pfloat (-1/10))
  stdBaseBaselineThresholdFactor := some (17/5)
  crossProjThreshold := none
  waveformThreshold := none
  xAxisEpoch := (.pfloat (-1/5), .pint 1)
  blankStimEpoch := (.pfloat (-3/200), .pfloat (1/400))
  generateElectrodeImages := true
  generateStimpairImages := true
  generateMatrixImages := true

def VALID_CHANNEL_TYPES : List String :=
  ["EEG", "ECOG", "SEEG", "DBS", "VEOG", "HEOG", "EOG", "ECG", "EMG", "TRIG",
   "AUDIO", "PD", "EYEGAZE", "PUPIL", "MISC", "SYSCLOCK", "ADC", "DAC", "REF", "OTHER"]

/-- Python `key in x` for a string key: key lookup on a dict, element
equality on a list, substring test on a str, TypeError otherwise. -/
def pyContainsKey (key : String) : JVal → Except Unit Bool
  | .jobj d => .ok (d.any (fun kv => kv.1 == key))
  | .jarr l => .ok (l.any (fun v => match v with | .jstr s => s == key | _ => false))
  | .jstr s => .ok (s.data.tails.any (fun t => key.data.isPrefixOf t))
  | _ => .error ()

/-- Python x[key]: dict lookup (json.load keeps the last duplicate);
KeyError or TypeError otherwise. In load_config every subscript is
guarded by `in`, so the dict branch never errors there. -/
def pySubscriptKey (key : String) : JVal → Except Unit JVal
  | .jobj d =>
    (match (d.filter (fun kv => kv.1 == key)).getLast? with
     | some kv => .ok kv.2
     | none => .error ())
  | _ => .error ()

/-- The guarded two-level access `if l1 in jd: if l2 in jd[l1]:`
shared by the retrieve helpers; ok none = some key absent (the helper
keeps the default and succeeds). -/
def jsonGet2 (j : JVal) (l1 l2 : String) : Except Unit (Option JVal) := do
  if ← pyContainsKey l1 j then
    let v1 ← pySubscriptKey l1 j
    if ← pyContainsKey l2 v1 then
      let v2 ← pySubscriptKey l2 v1
      pure (some v2)
    else pure none
  else pure none

/-- The guarded three-level access of the level3 retrieve paths. -/
def jsonGet3 (j : JVal) (l1 l2 l3 : String) : Except Unit (Option JVal) := do
  match ← jsonGet2 j l1 l2 with
  | none => pure none
  | some v2 =>
    if ← pyContainsKey l3 v2 then
      let v3 ← pySubscriptKey l3 v2
      pure (some v3)
    else pure none

/-- Python bool() of a JSON value (total: it raises on no input). -/
def pyBool : JVal → Bool
  | .jnull => false
  | .jbool b => b
  | .jnum x => if x.toQ = 0 then false else true
  | .jstr s => if s = "" then false else true
  | .jarr l => if l.isEmpty then false else true
  | .jobj d => if d.isEmpty then false else true

def digitsToNat (ds : List Char) : ℕ :=
  ds.foldl (fun acc c => acc * 10 + (c.toNat - 48)) 0

def parseSign : List Char → Bool × List Char
  | '-' :: rest => (true, rest)
  | '+' :: rest => (false, rest)
  | cs => (false, cs)

def pyStrStrip (cs : List Char) : List Char :=
  let ws := fun c : Char => c == ' ' || c == '\t' || c == '\n' || c == '\r'
  ((cs.dropWhile ws).reverse.dropWhile ws).reverse

def parseExpPart (mant : ℚ) (cs : List Char) : Option ℚ :=
  let (eneg, cs1) := parseSign cs
  let ds := cs1.takeWhile Char.isDigit
  let rest := cs1.dropWhile Char.isDigit
  if ds.isEmpty || !rest.isEmpty then none
  else
    let e := digitsToNat ds
    some (if eneg then mant / (10 : ℚ) ^ e else mant * (10 : ℚ) ^ e)

def parseFloatCore (cs : List Char) : Option ℚ :=
  let (neg, cs1) := parseSign cs
  let ipart := cs1.takeWhile Char.isDigit
  let rest1 := cs1.dropWhile Char.isDigit
  let fpart := match rest1 with
    | '.' :: r => r.takeWhile Char.isDigit
    | _ => []
  let rest2 := match rest1 with
    | '.' :: r => r.dropWhile Char.isDigit
    | _ => rest1
  if ipart.isEmpty && fpart.isEmpty then none
  else
    let mant : ℚ := (digitsToNat ipart : ℚ) + (digitsToNat fpart : ℚ) / (10 : ℚ) ^ fpart.length
    let mant := if neg then -mant else mant
    match rest2 with
    | [] => some mant
    | 'e' :: r => parseExpPart mant r
    | 'E' :: r => parseExpPart mant r
    | _ => none

/-- Modelled from the spec: utils.misc is not in src; spec 4.13
describes a numeric-literal predicate used by the configuration loader
that accepts ints, floats and numeric strings and rejects booleans and
non-numeric strings. Numeric strings are modelled by the decimal
float() grammar (optional surrounding whitespace, sign, digits with
optional fraction and exponent). -/
def parseFloatStr (s : String) : Option ℚ := parseFloatCore (pyStrStrip s.data)

/-- Modelled from the spec: utils.misc.is_number (see parseFloatStr);
JSON booleans are a distinct constructor here, so they are rejected. -/
def is_number : JVal → Bool
  | .jnum _ => true
  | .jstr s => (parseFloatStr s).isSome
  | _ => false

/-- float(x) for a value is_number accepts. -/
def pyFloat : JVal → ℚ
  | .jnum x => x.toQ
  | .jstr s => (parseFloatStr s).getD 0
  | _ => 0

/-- Modelled from the spec: utils.misc.is_valid_numeric_range (spec
4.13, a valid two-element numeric range, order unconstrained); the
loader stores the two raw JSON numbers. -/
def rangeOfJ : JVal → Option (PyNum × PyNum)
  | .jarr [.jnum a, .jnum b] => some (a, b)
  | _ => none

/-- Python int() truncation toward zero (applied to an integral value
in the loader). -/
def intTrunc (q : ℚ) : ℤ :=
  if q < 0 then -((-q).num / ((-q).den : ℤ)) else q.num / (q.den : ℤ)

inductive LoadErr
  | retFalse
  | raised
deriving DecidableEq

inductive LoadOutcome
  | retFalse
  | raised
  | retTrue
deriving DecidableEq

/-- retrieve_config_bool (lines 192-211), level-2 path: bool() cannot
raise, so its except branch is dead and the helper cannot fail. -/
def retrieveBool2 (j : JVal) (l1 l2 : String) (set : Config → Bool → Config)
    (cfg : Config) : Except LoadErr Config :=
  match jsonGet2 j l1 l2 with
  | .error _ => .error .raised
  | .ok none => .ok cfg
  | .ok (some v) => .ok (set cfg (pyBool v))

/-- retrieve_config_bool, level-3 path. -/
def retrieveBool3 (j : JVal) (l1 l2 l3 : String) (set : Config → Bool → Config)
    (cfg : Config) : Except LoadErr Config :=
  match jsonGet3 j l1 l2 l3 with
  | .error _ => .error .raised
  | .ok none => .ok cfg
  | .ok (some v) => .ok (set cfg (pyBool v))

/-- retrieve_config_number (lines 213-232), level-2 path. -/
def retrieveNumber2 (j : JVal) (l1 l2 : String) (set : Config → ℚ → Config)
    (cfg : Config) : Except LoadErr Config :=
  match jsonGet2 j l1 l2 with
  | .error _ => .error .raised
  | .ok none => .ok cfg
  | .ok (some v) => if is_number v then .ok (set cfg (pyFloat v)) else .error .retFalse

/-- retrieve_config_number, level-3 path. -/
def retrieveNumber3 (j : JVal) (l1 l2 l3 : String) (set : Config → ℚ → Config)
    (cfg : Config) : Except LoadErr Config :=
  match jsonGet3 j l1 l2 l3 with
  | .error _ => .error .raised
  | .ok none => .ok cfg
  | .ok (some v) => if is_number v then .ok (set cfg (pyFloat v)) else .error .retFalse

/-- retrieve_config_range (lines 234-254), level-2 path. -/
def retrieveRange2 (j : JVal) (l1 l2 : String) (set : Config → PyNum × PyNum → Config)
    (cfg : Config) : Except LoadErr Config :=
  match jsonGet2 j l1 l2 with
  | .error _ => .error .raised
  | .ok none => .ok cfg
  | .ok (some v) =>
    (match rangeOfJ v with
     | some r => .ok (set cfg r)
     | none => .error .retFalse)

/-- retrieve_config_range, level-3 path. -/
def retrieveRange3 (j : JVal) (l1 l2 l3 : String) (set : Config → PyNum × PyNum → Config)
    (cfg : Config) : Except LoadErr Config :=
  match jsonGet3 j l1 l2 l3 with
  | .error _ => .error .raised
  | .ok none => .ok cfg
  | .ok (some v) =>
    (match rangeOfJ v with
     | some r => .ok (set cfg r)
     | none => .error .retFalse)

/-- retrieve_config_string (lines 256-298) as used here: always with
an options list and case-insensitive matching; the original-case
string is stored on success. -/
def retrieveString2 (j : JVal) (l1 l2 : String) (options : List String)
    (set : Config → String → Config) (cfg : Config) : Except LoadErr Config :=
  match jsonGet2 j l1 l2 with
  | .error _ => .error .raised
  | .ok none => .ok cfg
  | .ok (some v) =>
    (match v with
     | .jstr s =>
       if (options.map (fun o => o.toLower)).contains s.toLower
       then .ok (set cfg s) else .error .retFalse
     | _ => .error .retFalse)

def allStringsJ : List JVal → Option (List String)
  | [] => some []
  | .jstr s :: rest => (allStringsJ rest).map (fun ss => s :: ss)
  | _ => none

/-- retrieve_config_tuple (lines 300-349) as used here (channels
types): case-insensitive options; the values are lower-cased with
str.lower() before the membership test, so a non-string element
raises AttributeError (error .raised), and on success the lower-cased
values are stored. -/
def retrieveTuple2 (j : JVal) (l1 l2 : String) (options : List String)
    (set : Config → List String → Config) (cfg : Config) : Except LoadErr Config :=
  match jsonGet2 j l1 l2 with
  | .error _ => .error .raised
  | .ok none => .ok cfg
  | .ok (some v) =>
    (match v with
     | .jarr l =>
       (match allStringsJ l with
        | none => .error .raised
        | some ss =>
          let vals := ss.map (fun s => s.toLower)
          if vals.all (fun s => (options.map (fun o => o.toLower)).contains s)
          then .ok (set cfg vals) else .error .retFalse)
     | _ => .error .retFalse)

/-- KeyError when reading an entry a load has left absent. -/
def getOpt (x : Option α) : Except Unit α :=
  match x with
  | some v => .ok v
  | none => .error ()

/-- __check_config's check_range_order (lines 594-612): end before
start or equal endpoints fail. -/
def check_range_order (r : PyNum × PyNum) : Bool :=
  if r.2.toQ < r.1.toQ then false
  else if r.1.toQ = r.2.toQ then false
  else true

/-- __check_config's check_epoch_within_trial (lines 574-592). -/
def check_epoch_within_trial (trial r : PyNum × PyNum) : Bool :=
  if r.1.toQ < trial.1.toQ then false
  else if r.2.toQ > trial.2.toQ then false
  else true

/-- __check_config's check_epoch_start_after_onset (lines 560-572). -/
def check_epoch_start_after_onset (r : PyNum × PyNum) : Bool :=
  if r.1.toQ < 0 then false else true

/-- __check_config's check_number_positive, level-3 path (lines
553-556): despite the message it only rejects values below 0. -/
def check_number_positive3 (q : ℚ) : Bool :=
  if q < 0 then false else true

/-- __check_config (config.py lines 535-696); reading a std_base or
threshold entry that a load has left absent raises KeyError. -/
def __check_config (cfg : Config) : Except Unit Bool := do
  -- parameter start-end order (lines 614-633)
  if ¬ check_range_order cfg.trialEpoch then return false
  if ¬ check_range_order cfg.baselineEpoch then return false
  if ¬ check_range_order cfg.crossProjEpoch then return false
  if ¬ check_range_order cfg.waveformEpoch then return false
  if ¬ check_range_order cfg.peakSearchEpoch then return false
  if ¬ check_range_order cfg.n1SearchEpoch then return false
  if cfg.method == "std_base" then
    if ¬ check_range_order (← getOpt cfg.stdBaseBaselineEpoch) then return false
  if ¬ check_range_order cfg.xAxisEpoch then return false
  if ¬ check_range_order cfg.blankStimEpoch then return false
  -- detection epochs within the trial epoch (lines 636-651)
  if ¬ check_epoch_within_trial cfg.trialEpoch cfg.crossProjEpoch then return false
  if ¬ check_epoch_within_trial cfg.trialEpoch cfg.waveformEpoch then return false
  if ¬ check_epoch_within_trial cfg.trialEpoch cfg.peakSearchEpoch then return false
  if ¬ check_epoch_within_trial cfg.trialEpoch cfg.n1SearchEpoch then return false
  if cfg.method == "std_base" then
    if ¬ check_epoch_within_trial cfg.trialEpoch (← getOpt cfg.stdBaseBaselineEpoch) then
      return false
  if ¬ check_epoch_within_trial cfg.trialEpoch cfg.xAxisEpoch then return false
  if ¬ check_epoch_within_trial cfg.trialEpoch cfg.blankStimEpoch then return false
  -- the trial epoch must start before the stimulus onset (line 654)
  if cfg.trialEpoch.1.toQ ≥ 0 then return false
  -- metric and search epochs after the onset (lines 659-668)
  if ¬ check_epoch_start_after_onset cfg.crossProjEpoch then return false
  if ¬ check_epoch_start_after_onset cfg.waveformEpoch then return false
  if ¬ check_epoch_start_after_onset cfg.peakSearchEpoch then return false
  if ¬ check_epoch_start_after_onset cfg.n1SearchEpoch then return false
  -- threshold positivity per method (lines 671-679)
  if cfg.method == "std_base" then
    if ¬ check_number_positive3 (← getOpt cfg.stdBaseBaselineThresholdFactor) then
      return false
  else if cfg.method == "cross_proj" then
    if ¬ check_number_positive3 (← getOpt cfg.crossProjThreshold) then return false
  else if cfg.method == "waveform" then
    if ¬ check_number_positive3 (← getOpt cfg.waveformThreshold) then return false
  -- waveform bandpass limits (lines 682-693)
  if cfg.waveformBandpass.1.toQ ≤ 0 then return false
  if cfg.waveformBandpass.2.toQ ≤ 0 then return false
  if cfg.waveformBandpass.2.toQ < cfg.waveformBandpass.1.toQ then return false
  if cfg.waveformBandpass.1.toQ = cfg.waveformBandpass.2.toQ then return false
  return true

/-- The retrieval pipeline of load_config (config.py lines 174-444):
a local config is built from the defaults and overlaid with the file's
recognized fields in source order; the first failed check returns
False, and Python exceptions escape (error .raised). The module-global
configuration is not touched here. -/
def loadPipeline (j : JVal) : Except LoadErr Config := do
  let cfg := defaultConfig
  -- preprocessing settings (line 356)
  let cfg ← retrieveBool2 j "preprocess" "high_pass"
    (fun c b => { c with highPass := b }) cfg
  -- trials settings (lines 360-380)
  let cfg ← retrieveRange2 j "trials" "trial_epoch"
    (fun c r => { c with trialEpoch := r }) cfg
  let cfg ← retrieveString2 j "trials" "out_of_bounds_handling"
    ["error", "first_last_only", "allow"]
    (fun c s => { c with outOfBoundsHandling := s }) cfg
  let cfg := { cfg with outOfBoundsHandling := cfg.outOfBoundsHandling.toLower }
  let cfg ← retrieveRange2 j "trials" "baseline_epoch"
    (fun c r => { c with baselineEpoch := r }) cfg
  let cfg ← retrieveString2 j "trials" "baseline_norm" ["median", "mean", "none"]
    (fun c s => { c with baselineNorm := s }) cfg
  let cfg := { cfg with baselineNorm := cfg.baselineNorm.toLower }
  let cfg ← retrieveBool2 j "trials" "concat_bidirectional_pairs"
    (fun c b => { c with concatBidirectionalPairs := b }) cfg
  let mq ← (match jsonGet2 j "trials" "minimum_stimpair_trials" with
    | .error _ => Except.error LoadErr.raised
    | .ok none => Except.ok ((cfg.minimumStimpairTrials : ℚ))
    | .ok (some v) =>
      if is_number v then Except.ok (pyFloat v) else Except.error LoadErr.retFalse)
  if ¬ (mq = ((pyround mq : ℤ) : ℚ)) then throw LoadErr.retFalse
  if mq < 0 then throw LoadErr.retFalse
  let cfg := { cfg with minimumStimpairTrials := intTrunc mq }
  -- channel settings (lines 383-388)
  let cfg ← retrieveTuple2 j "channels" "types" VALID_CHANNEL_TYPES
    (fun c ss => { c with channelTypes := ss }) cfg
  if cfg.channelTypes.length = 0 then throw LoadErr.retFalse
  let cfg := { cfg with channelTypes := cfg.channelTypes.map (fun s => s.toUpper) }
  -- cross-projection metric settings (lines 391-394)
  let cfg ← retrieveBool3 j "metrics" "cross_proj" "enabled"
    (fun c b => { c with crossProjEnabled := b }) cfg
  let cfg ← retrieveRange3 j "metrics" "cross_proj" "epoch"
    (fun c r => { c with crossProjEpoch := r }) cfg
  -- waveform metric settings (lines 397-402)
  let cfg ← retrieveBool3 j "metrics" "waveform" "enabled"
    (fun c b => { c with waveformEnabled := b }) cfg
  let cfg ← retrieveRange3 j "metrics" "waveform" "epoch"
    (fun c r => { c with waveformEpoch := r }) cfg
  let cfg ← retrieveRange3 j "metrics" "waveform" "bandpass"
    (fun c r => { c with waveformBandpass := r }) cfg
  -- n1 peak detection settings (lines 405-412)
  let cfg ← retrieveRange2 j "n1_detect" "peak_search_epoch"
    (fun c r => { c with peakSearchEpoch := r }) cfg
  let cfg ← retrieveRange2 j "n1_detect" "n1_search_epoch"
    (fun c r => { c with n1SearchEpoch := r }) cfg
  let cfg ← retrieveString2 j "n1_detect" "method" ["std_base", "cross_proj", "waveform"]
    (fun c s => { c with method := s }) cfg
  -- the method sub-dictionaries are popped (lines 415-417) and, for the
  -- matching method, recreated empty and filled only from keys present
  -- in the file (lines 419-432)
  let cfg := { cfg with stdBaseBaselineEpoch := none,
                        stdBaseBaselineThresholdFactor := none,
                        crossProjThreshold := none, waveformThreshold := none }
  let cfg ←
    if cfg.method == "std_base" then do
      let cfg ← retrieveRange3 j "n1_detect" "std_base" "baseline_epoch"
        (fun c r => { c with stdBaseBaselineEpoch := some r }) cfg
      retrieveNumber3 j "n1_detect" "std_base" "baseline_threshold_factor"
        (fun c q => { c with stdBaseBaselineThresholdFactor := some q }) cfg
    else if cfg.method == "cross_proj" then
      retrieveNumber3 j "n1_detect" "cross_proj" "threshold"
        (fun c q => { c with crossProjThreshold := some q }) cfg
    else if cfg.method == "waveform" then
      retrieveNumber3 j "n1_detect" "waveform" "threshold"
        (fun c q => { c with waveformThreshold := some q }) cfg
    else pure cfg
  -- visualization settings (lines 435-444)
  let cfg ← retrieveRange2 j "visualization" "x_axis_epoch"
    (fun c r => { c with xAxisEpoch := r }) cfg
  let cfg ← retrieveRange2 j "visualization" "blank_stim_epoch"
    (fun c r => { c with blankStimEpoch := r }) cfg
  let cfg ← retrieveBool2 j "visualization" "generate_electrode_images"
    (fun c b => { c with generateElectrodeImages := b }) cfg
  let cfg ← retrieveBool2 j "visualization" "generate_stimpair_images"
    (fun c b => { c with generateStimpairImages := b }) cfg
  let cfg ← retrieveBool2 j "visualization" "generate_matrix_images"
    (fun c b => { c with generateMatrixImages := b }) cfg
  pure cfg

/-- load_config after a successful JSON parse: the pipeline, then the
sanity checks (line 447); an exception inside them escapes too. -/
def loadFromJson (j : JVal) : Except LoadErr Config :=
  match loadPipeline j with
  | .error e => .error e
  | .ok cfg =>
    match __check_config cfg with
    | .error _ => .error .raised
    | .ok false => .error .retFalse
    | .ok true => .ok cfg

/-- load_config (config.py lines 163-456) acting on the module-global
configuration g: none = the file could not be read or parsed (returns
False); the global is replaced (line 453) only when everything
succeeded and True is returned. -/
def load_config_model (g : Config) (j : Option JVal) : Config × LoadOutcome :=
  match j with
  | none => (g, .retFalse)
  | some jv =>
    match loadFromJson jv with
    | .error .retFalse => (g, .retFalse)
    | .error .raised => (g, .raised)
    | .ok cfg => (cfg, .retTrue)

/-! ### write_config (config.py lines 459-532) and the JSON syntax -/

/-- Modelled from the spec: utils.misc.numbers_to_padded_string is not
in src; spec 4.13 and 6 describe a fixed-width, decimal-aligned
formatter padding numeric entries to 16-character columns, cosmetic
only. Modelled as each number rendered as str() would, right-padded
with spaces to the column, joined by a comma and space. -/
def padRightSpaces (s : String) (w : ℕ) : String :=
  s ++ String.mk (List.replicate (w - s.length) ' ')

/-- Python str() of a float: the shortest exact decimal (every value
the program serializes is a finite decimal; a non-decimal rational
falls back to the raw fraction). -/
def decExpand (q : ℚ) : Option (ℤ × ℕ) :=
  (List.range 21).findSome? (fun k =>
    if (q * (10 : ℚ) ^ k).den = 1 then some ((q * (10 : ℚ) ^ k).num, k) else none)

def qFloatStr (q : ℚ) : String :=
  match decExpand q with
  | some (m, 0) => toString m ++ ".0"
  | some (m, k) =>
    let sign := if m < 0 then "-" else ""
    let ds := (toString m.natAbs).data
    let ds := if ds.length < k + 1 then List.replicate (k + 1 - ds.length) '0' ++ ds else ds
    sign ++ String.mk (ds.take (ds.length - k)) ++ "." ++ String.mk (ds.drop (ds.length - k))
  | none => toString q

def pyNumStr : PyNum → String
  | .pint n => toString n
  | .pfloat q => qFloatStr q

def numbersToPaddedString (r : PyNum × PyNum) (w : ℕ) : String :=
  padRightSpaces (pyNumStr r.1) w ++ ", " ++ padRightSpaces (pyNumStr r.2) w

/-- json.dumps of a list of plain strings. -/
def jsonDumpsStrList (ss : List String) : String :=
  "[" ++ String.intercalate ", " (ss.map (fun s => "\"" ++ s ++ "\"")) ++ "]"

/-- write_config's hand-built string (lines 469-528), reproduced
verbatim: note that the line_noise_removal line ends without a comma
before the next key, and that the early_re_referencing block keeps a
comma before the closing brace of preprocess. Reading an absent
method sub-entry raises KeyError. -/
def write_config_model (cfg : Config) : Except Unit String := do
  let part1 :=
    "\x7b\n" ++
    "    \"preprocess\": \x7b\n" ++
    "        \"high_pass\":                        " ++
      (if cfg.highPass then "true" else "false") ++ ",\n" ++
    "        \"line_noise_removal\":               \"" ++ cfg.lineNoiseRemoval ++ "\"\n" ++
    "        \"early_re_referencing\": \x7b\n" ++
    "            \"enabled\":                      " ++
      (if cfg.earlyRerefEnabled then "true" else "false") ++ ",\n" ++
    "            \"method\":                       \"" ++ cfg.earlyRerefMethod ++ "\",\n" ++
    "            \"stim_excl_epoch\":              [" ++
      numbersToPaddedString cfg.earlyRerefStimExclEpoch 16 ++ "]\n" ++
    "        \x7d,\n" ++
    "    \x7d,\n\n" ++
    "    \"trials\": \x7b\n" ++
    "        \"trial_epoch\":                      [" ++
      numbersToPaddedString cfg.trialEpoch 16 ++ "],\n" ++
    "        \"out_of_bounds_handling\":           \"" ++ cfg.outOfBoundsHandling ++ "\",\n" ++
    "        \"baseline_epoch\":                   [" ++
      numbersToPaddedString cfg.baselineEpoch 16 ++ "],\n" ++
    "        \"baseline_norm\":                    \"" ++ cfg.baselineNorm ++ "\",\n" ++
    "        \"concat_bidirectional_pairs\":       " ++
      (if cfg.concatBidirectionalPairs then "true" else "false") ++ ",\n" ++
    "        \"minimum_stimpair_trials\":          " ++
      toString cfg.minimumStimpairTrials ++ "\n" ++
    "    \x7d,\n\n" ++
    "    \"channels\": \x7b\n" ++
    "        \"types\":                            " ++
      jsonDumpsStrList cfg.channelTypes ++ "\n" ++
    "    \x7d,\n\n" ++
    "    \"metrics\": \x7b\n" ++
    "        \"cross_proj\": \x7b\n" ++
    "            \"enabled\":                      " ++
      (if cfg.crossProjEnabled then "true" else "false") ++ ",\n" ++
    "            \"epoch\":                        [" ++
      numbersToPaddedString cfg.crossProjEpoch 16 ++ "]\n" ++
    "        \x7d,\n" ++
    "        \"waveform\": \x7b\n" ++
    "            \"enabled\":                      " ++
      (if cfg.waveformEnabled then "true" else "false") ++ ",\n" ++
    "            \"epoch\":                        [" ++
      numbersToPaddedString cfg.waveformEpoch 16 ++ "],\n" ++
    "            \"bandpass\":                     [" ++
      numbersToPaddedString cfg.waveformBandpass 16 ++ "]\n" ++
    "        \x7d\n" ++
    "    \x7d,\n\n" ++
    "    \"n1_detect\": \x7b\n" ++
    "        \"peak_search_epoch\":                [" ++
      numbersToPaddedString cfg.peakSearchEpoch 16 ++ "],\n" ++
    "        \"n1_search_epoch\":                  [" ++
      numbersToPaddedString cfg.n1SearchEpoch 16 ++ "],\n" ++
    "        \"method\":                           \"" ++ cfg.method ++ "\",\n"
  let mid ←
    if cfg.method == "std_base" then do
      let be ← getOpt cfg.stdBaseBaselineEpoch
      let bf ← getOpt cfg.stdBaseBaselineThresholdFactor
      pure ("        \"std_base\": \x7b\n" ++
        "            \"baseline_epoch\":                [" ++
          numbersToPaddedString be 16 ++ "],\n" ++
        "            \"baseline_threshold_factor\":     " ++ qFloatStr bf ++ "\n" ++
        "        \x7d\n")
    else if cfg.method == "cross_proj" then do
      let th ← getOpt cfg.crossProjThreshold
      pure ("        \"cross_proj\": \x7b\n" ++
        "            \"threshold\":                     " ++ qFloatStr th ++ "\n" ++
        "        \x7d\n")
    else if cfg.method == "waveform" then do
      let th ← getOpt cfg.waveformThreshold
      pure ("        \"waveform\": \x7b\n" ++
        "            \"threshold\":                     " ++ qFloatStr th ++ "\n" ++
        "        \x7d\n")
    else pure ""
  let part3 :=
    "    \x7d,\n\n" ++
    "    \"visualization\": \x7b\n" ++
    "        \"x_axis_epoch\":                     [" ++
      numbersToPaddedString cfg.xAxisEpoch 16 ++ "],\n" ++
    "        \"blank_stim_epoch\":                 [" ++
      numbersToPaddedString cfg.blankStimEpoch 16 ++ "],\n" ++
    "        \"generate_electrode_images\":        " ++
      (if cfg.generateElectrodeImages then "true" else "false") ++ ",\n" ++
    "        \"generate_stimpair_images\":         " ++
      (if cfg.generateStimpairImages then "true" else "false") ++ ",\n" ++
    "        \"generate_matrix_images\":           " ++
      (if cfg.generateMatrixImages then "true" else "false") ++ "\n" ++
    "    \x7d\n" ++
    "\x7d"
  pure (part1 ++ mid ++ part3)

/-- The file content write_config produces (the string plus the
trailing newline of line 531). -/
def writeConfigFile (cfg : Config) : Except Unit String :=
  (write_config_model cfg).map (fun s => s ++ "\n")

def exceptToOption : Except ε α → Option α
  | .ok a => some a
  | .error _ => none

/-- JSON whitespace. -/
def jsonWs (cs : List Char) : List Char :=
  cs.dropWhile (fun c => c == ' ' || c == '\t' || c == '\n' || c == '\r')

def hexVal (c : Char) : Option ℕ :=
  if c.isDigit then some (c.toNat - 48)
  else if 'a' ≤ c ∧ c ≤ 'f' then some (c.toNat - 87)
  else if 'A' ≤ c ∧ c ≤ 'F' then some (c.toNat - 55)
  else none

/-- A JSON string body after the opening quote (fuel bounds the
length): the decoded characters and the rest of the input. -/
def parseJStringChars : ℕ → List Char → Option (List Char × List Char)
  | 0, _ => none
  | _, [] => none
  | fuel + 1, c :: rest =>
    if c = '"' then some ([], rest)
    else if c = '\\' then
      match rest with
      | [] => none
      | e :: rest2 =>
        let dec : Option (Char × List Char) :=
          if e = '"' then some ('"', rest2)
          else if e = '\\' then some ('\\', rest2)
          else if e = '/' then some ('/', rest2)
          else if e = 'b' then some (Char.ofNat 8, rest2)
          else if e = 'f' then some (Char.ofNat 12, rest2)
          else if e = 'n' then some ('\n', rest2)
          else if e = 'r' then some ('\r', rest2)
          else if e = 't' then some ('\t', rest2)
          else if e = 'u' then
            match rest2 with
            | h1 :: h2 :: h3 :: h4 :: rest3 =>
              (match hexVal h1, hexVal h2, hexVal h3, hexVal h4 with
               | some a, some b, some c2, some d =>
                 some (Char.ofNat (((a * 16 + b) * 16 + c2) * 16 + d), rest3)
               | _, _, _, _ => none)
            | _ => none
          else none
        match dec with
        | none => none
        | some (ch, restN) =>
          (match parseJStringChars fuel restN with
           | some (out, fin) => some (ch :: out, fin)
           | none => none)
    else if c.toNat < 32 then none
    else
      match parseJStringChars fuel rest with
      | some (out, fin) => some (c :: out, fin)
      | none => none

def jNumExp (neg : Bool) (ipart fpart : List Char) (cs : List Char) :
    Option (PyNum × List Char) :=
  let (eneg, cs1) := match cs with
    | '-' :: r => (true, r)
    | '+' :: r => (false, r)
    | _ => (false, cs)
  let ds := cs1.takeWhile Char.isDigit
  let rest := cs1.dropWhile Char.isDigit
  if ds.isEmpty then none
  else
    let m : ℚ := (digitsToNat ipart : ℚ) + (digitsToNat fpart : ℚ) / (10 : ℚ) ^ fpart.length
    let m := if neg then -m else m
    let e := digitsToNat ds
    some (.pfloat (if eneg then m / (10 : ℚ) ^ e else m * (10 : ℚ) ^ e), rest)

/-- A JSON number token: an int unless it has a fraction or exponent
(as json.load distinguishes them). -/
def parseJNumber (cs : List Char) : Option (PyNum × List Char) :=
  let (neg, cs1) := match cs with
    | '-' :: r => (true, r)
    | _ => (false, cs)
  let ipart := cs1.takeWhile Char.isDigit
  let rest1 := cs1.dropWhile Char.isDigit
  if ipart.isEmpty then none
  else if ipart.length > 1 && ipart.headD '1' == '0' then none
  else
    let hasFrac := match rest1 with
      | '.' :: _ => true
      | _ => false
    let fpart := match rest1 with
      | '.' :: r => r.takeWhile Char.isDigit
      | _ => []
    let rest2 := match rest1 with
      | '.' :: r => r.dropWhile Char.isDigit
      | _ => rest1
    if hasFrac && fpart.isEmpty then none
    else
      match rest2 with
      | 'e' :: r => jNumExp neg ipart fpart r
      | 'E' :: r => jNumExp neg ipart fpart r
      | _ =>
        if hasFrac then
          let m : ℚ := (digitsToNat ipart : ℚ) +
            (digitsToNat fpart : ℚ) / (10 : ℚ) ^ fpart.length
          some (.pfloat (if neg then -m else m), rest2)
        else
          some (.pint (if neg then -(digitsToNat ipart : ℤ) else (digitsToNat ipart : ℤ)),
            rest2)

mutual

/-- Recursive-descent JSON value (fuel bounds the structure depth and
the member counts). -/
def parseJValue : ℕ → List Char → Option (JVal × List Char)
  | 0, _ => none
  | fuel + 1, cs =>
    match jsonWs cs with
    | [] => none
    | c :: rest =>
      if c = '\x7b' then
        match jsonWs rest with
        | '\x7d' :: fin => some (.jobj [], fin)
        | cs2 => parseJObjFields fuel cs2 []
      else if c = '[' then
        match jsonWs rest with
        | ']' :: fin => some (.jarr [], fin)
        | cs2 => parseJArrElems fuel cs2 []
      else if c = '"' then
        match parseJStringChars 1000000 rest with
        | some (out, fin) => some (.jstr (String.mk out), fin)
        | none => none
      else if c = 't' then
        match rest with
        | 'r' :: 'u' :: 'e' :: fin => some (.jbool true, fin)
        | _ => none
      else if c = 'f' then
        match rest with
        | 'a' :: 'l' :: 's' :: 'e' :: fin => some (.jbool false, fin)
        | _ => none
      else if c = 'n' then
        match rest with
        | 'u' :: 'l' :: 'l' :: fin => some (.jnull, fin)
        | _ => none
      else
        match parseJNumber (c :: rest) with
        | some (x, fin) => some (.jnum x, fin)
        | none => none

def parseJObjFields : ℕ → List Char → List (String × JVal) → Option (JVal × List Char)
  | 0, _, _ => none
  | fuel + 1, cs, acc =>
    match jsonWs cs with
    | '"' :: rest =>
      (match parseJStringChars 1000000 rest with
       | none => none
       | some (key, cs2) =>
         match jsonWs cs2 with
         | ':' :: cs3 =>
           (match parseJValue fuel cs3 with
            | none => none
            | some (v, cs4) =>
              match jsonWs cs4 with
              | ',' :: cs5 => parseJObjFields fuel cs5 (acc ++ [(String.mk key, v)])
              | '\x7d' :: fin => some (.jobj (acc ++ [(String.mk key, v)]), fin)
              | _ => none)
         | _ => none)
    | _ => none

def parseJArrElems : ℕ → List Char → List JVal → Option (JVal × List Char)
  | 0, _, _ => none
  | fuel + 1, cs, acc =>
    match parseJValue fuel cs with
    | none => none
    | some (v, cs2) =>
      match jsonWs cs2 with
      | ',' :: cs3 => parseJArrElems fuel cs3 (acc ++ [v])
      | ']' :: fin => some (.jarr (acc ++ [v]), fin)
      | _ => none

end

/-- json.load on a file's text: one JSON value, then only whitespace;
none models json.decoder.JSONDecodeError. -/
def jsonParse (s : String) : Option JVal :=
  match parseJValue 1000000 s.data with
  | some (v, rest) => if (jsonWs rest).isEmpty then some v else none
  | none => none

/-- A configuration file that supplies the two std_base entries
load_config expects after it has discarded their defaults. -/
def wJstd : JVal :=
  .jobj [("n1_detect", .jobj [("std_base", .jobj
    [("baseline_epoch", .jarr [.jnum (.pint (-1)), .jnum (.pfloat (-1/10))]),
     ("baseline_threshold_factor", .jnum (.pfloat (17/5)))])])]

/-! ### Theorems

Helper lemmas first, then for each claim one theorem (with its witness or
counterexample where required).
-/

theorem mapWithIdx_length (f : ℕ → α → β) :
    ∀ i l, (mapWithIdx f i l).length = l.length := by
  intro i l
  induction l generalizing i with
  | nil => rfl
  | cons x xs ih => simp [mapWithIdx, ih]

theorem mapWithIdx_getElem? (f : ℕ → α → β) :
    ∀ i l t, (mapWithIdx f i l)[t]? = (l[t]?).map (f (i + t)) := by
  intro i l
  induction l generalizing i with
  | nil => intro t; simp [mapWithIdx]
  | cons x xs ih =>
    intro t
    cases t with
    | zero => simp [mapWithIdx]
    | succ t =>
      simp only [mapWithIdx, List.getElem?_cons_succ, ih (i + 1) t]
      have : i + 1 + t = i + (t + 1) := by omega
      rw [this]

theorem zeroNaNIn_getElem? (row : List F) (a b : ℤ) (t : ℕ) :
    (zeroNaNIn row a b)[t]? = (row[t]?).map (fun x =>
      if inSlicePos row.length a b t && fIsNaN x then some 0 else x) := by
  simp [zeroNaNIn, mapWithIdx_getElem?]

theorem zeroNaNIn_length (row : List F) (a b : ℤ) :
    (zeroNaNIn row a b).length = row.length := by
  simp [zeroNaNIn, mapWithIdx_length]

theorem get2_map (m : List (List α)) (f : α → β) (e p : ℕ) :
    get2 (m.map (fun r => r.map f)) e p = (get2 m e p).map f := by
  simp only [get2, List.getElem?_map]
  cases m[e]? with
  | none => rfl
  | some r => simp

theorem processCell_ok_row {pf : List F → List (ℕ × F)} {sqrt : ℚ → ℚ}
    {p : DetectParams} {psS psE n1S n1E : ℤ} {bnds : Option (ℤ × ℤ)}
    {cpmC wfmC : Option F} {row : List F} {c : F × F × List F}
    (h : processCell pf sqrt p psS psE n1S n1E bnds cpmC wfmC row = .ok c) :
    c.2.2 = if (pySlice row (psS + 1) psE).all fIsNaN then row
            else zeroNaNIn row (psS + 1) psE := by
  unfold processCell at h
  by_cases hnan : (pySlice row (psS + 1) psE).all fIsNaN
  · simp only [hnan, if_true, Except.ok.injEq] at h
    simp [hnan, ← h]
  · simp only [hnan, if_false, Bool.false_eq_true] at h
    rcases hsel : selectPeak pf (zeroNaNIn row (psS + 1) psE) psS psE n1S n1E with u | o
    · rw [hsel] at h; cases h
    · rw [hsel] at h
      match o with
      | none => simp only [Except.ok.injEq] at h; simp [hnan, ← h]
      | some (idx, mag) =>
        simp only [Except.map] at h
        rcases hcl : classifyPeak sqrt p bnds cpmC wfmC (zeroNaNIn row (psS + 1) psE) idx mag with u | r
        · rw [hcl] at h; cases h
        · rw [hcl] at h
          simp only [Except.ok.injEq] at h
          simp [hnan, ← h]

theorem detectPairCells_ok {pf : List F → List (ℕ × F)} {sqrt : ℚ → ℚ}
    {p : DetectParams} {psS psE n1S n1E : ℤ} {bnds : Option (ℤ × ℤ)}
    {cpm wfm : Option (List (List F))} {e : ℕ} :
    ∀ {k : ℕ} {rows : List (List F)} {cs : List (F × F × List F)},
      detectPairCells pf sqrt p psS psE n1S n1E bnds cpm wfm e k rows = .ok cs →
      cs.length = rows.length ∧
      ∀ j row, rows[j]? = some row →
        ∃ c, cs[j]? = some c ∧
          processCell pf sqrt p psS psE n1S n1E bnds
            (metricCell cpm e (k + j)) (metricCell wfm e (k + j)) row = .ok c := by
  intro k rows
  induction rows generalizing k with
  | nil =>
    intro cs h
    simp only [detectPairCells, Except.ok.injEq] at h
    subst h
    exact ⟨rfl, by intro j row hj; simp at hj⟩
  | cons row rest ih =>
    intro cs h
    unfold detectPairCells at h
    rcases hc : processCell pf sqrt p psS psE n1S n1E bnds
        (metricCell cpm e k) (metricCell wfm e k) row with u | c
    · rw [hc] at h; simp [Bind.bind, Except.bind] at h
    · rw [hc] at h
      rcases hr : detectPairCells pf sqrt p psS psE n1S n1E bnds cpm wfm e (k + 1) rest with u | cs2
      · rw [hr] at h; simp [Bind.bind, Except.bind] at h
      · rw [hr] at h
        simp only [Bind.bind, Except.bind, Except.ok.injEq] at h
        subst h
        obtain ⟨hlen, hget⟩ := ih hr
        refine ⟨by simp [hlen], ?_⟩
        intro j r hj
        cases j with
        | zero =>
          simp only [List.getElem?_cons_zero, Option.some.injEq] at hj
          subst hj
          exact ⟨c, by simp, by simpa using hc⟩
        | succ j =>
          simp only [List.getElem?_cons_succ] at hj
          obtain ⟨c2, hcs, hpc⟩ := hget j r hj
          refine ⟨c2, by simpa using hcs, ?_⟩
          have harith : k + (j + 1) = k + 1 + j := by omega
          rw [harith]
          exact hpc

theorem detectCells_ok {pf : List F → List (ℕ × F)} {sqrt : ℚ → ℚ}
    {p : DetectParams} {psS psE n1S n1E : ℤ} {bnds : Option (ℤ × ℤ)}
    {cpm wfm : Option (List (List F))} :
    ∀ {k : ℕ} {rows : List (List (List F))} {cs : List (List (F × F × List F))},
      detectCells pf sqrt p psS psE n1S n1E bnds cpm wfm k rows = .ok cs →
      cs.length = rows.length ∧
      ∀ j prow, rows[j]? = some prow →
        ∃ cr, cs[j]? = some cr ∧
          detectPairCells pf sqrt p psS psE n1S n1E bnds cpm wfm (k + j) 0 prow = .ok cr := by
  intro k rows
  induction rows generalizing k with
  | nil =>
    intro cs h
    simp only [detectCells, Except.ok.injEq] at h
    subst h
    exact ⟨rfl, by intro j prow hj; simp at hj⟩
  | cons prow rest ih =>
    intro cs h
    unfold detectCells at h
    rcases hc : detectPairCells pf sqrt p psS psE n1S n1E bnds cpm wfm k 0 prow with u | cr
    · rw [hc] at h; simp [Bind.bind, Except.bind] at h
    · rw [hc] at h
      rcases hr : detectCells pf sqrt p psS psE n1S n1E bnds cpm wfm (k + 1) rest with u | cs2
      · rw [hr] at h; simp [Bind.bind, Except.bind] at h
      · rw [hr] at h
        simp only [Bind.bind, Except.bind, Except.ok.injEq] at h
        subst h
        obtain ⟨hlen, hget⟩ := ih hr
        refine ⟨by simp [hlen], ?_⟩
        intro j r hj
        cases j with
        | zero =>
          simp only [List.getElem?_cons_zero, Option.some.injEq] at hj
          subst hj
          exact ⟨cr, by simp, by simpa using hc⟩
        | succ j =>
          simp only [List.getElem?_cons_succ] at hj
          obtain ⟨c2, hcs, hpc⟩ := hget j r hj
          refine ⟨c2, by simpa using hcs, ?_⟩
          have harith : k + (j + 1) = k + 1 + j := by omega
          rw [harith]
          exact hpc

theorem ieegDetectN1_ok_cell {pf : List F → List (ℕ × F)} {sqrt : ℚ → ℚ}
    {p : DetectParams} {data : List (List (List F))} {onset : ℤ} {sr : ℚ}
    {cpm wfm : Option (List (List F))} {inds amps : List (List F)}
    {data2 : List (List (List F))}
    (h : ieegDetectN1 pf sqrt p data onset sr cpm wfm = .ok inds amps data2) :
    ∀ e pr row, get2 data e pr = some row →
      ∃ c, processCell pf sqrt p (peakSearchStart p sr onset)
            (peakSearchEnd p sr onset) (n1SearchStart p sr onset)
            (n1SearchEnd p sr onset) (detectBnds p sr onset)
            (metricCell cpm e pr) (metricCell wfm e pr) row = .ok c ∧
          get2 inds e pr = some c.1 ∧ get2 amps e pr = some c.2.1 ∧
          get2 data2 e pr = some c.2.2 := by
  unfold ieegDetectN1 at h
  split at h
  · cases h
  split at h
  · cases h
  split at h
  · cases h
  split at h
  · cases h
  split at h
  · cases h
  rcases hdc : detectCells pf sqrt p (peakSearchStart p sr onset)
      (peakSearchEnd p sr onset) (n1SearchStart p sr onset)
      (n1SearchEnd p sr onset) (detectBnds p sr onset) cpm wfm 0 data with u | cells
  · rw [hdc] at h; cases h
  · rw [hdc] at h
    cases h
    intro e pr row hrow
    simp only [get2] at hrow
    rcases hde : data[e]? with _ | prow
    · rw [hde] at hrow; cases hrow
    · rw [hde] at hrow
      simp only [Option.some_bind] at hrow
      obtain ⟨-, hget⟩ := detectCells_ok hdc
      obtain ⟨cr, hcr, hpair⟩ := hget e prow hde
      obtain ⟨-, hget2⟩ := detectPairCells_ok hpair
      obtain ⟨c, hc, hproc⟩ := hget2 pr row hrow
      simp only [Nat.zero_add] at hproc
      refine ⟨c, hproc, ?_, ?_, ?_⟩ <;>
        simp [get2_map, get2, hcr, hc]

/-- C1: in ieeg_detect_n1 with method std_base, for every
electrode/stim-pair cell whose peak-search signal is not entirely missing
and whose selected negative peak passes the polarity and saturation
checks and whose baseline window is not entirely missing, the standard
deviation of the baseline window is computed, clamped to a floor of 50
when smaller, and the peak is recorded as an N1 (index and amplitude
stored) if and only if the absolute peak amplitude is at least
baseline_threshold_factor times the clamped standard deviation. -/
theorem C1_std_base_threshold
    {pf : List F → List (ℕ × F)} {sqrt : ℚ → ℚ} {p : DetectParams}
    {data : List (List (List F))} {onset : ℤ} {sr : ℚ}
    {cpm wfm : Option (List (List F))} {inds amps : List (List F)}
    {data2 : List (List (List F))} {e pr : ℕ} {row : List F} {i : ℤ} {m : F}
    (hmeth : p.method = "std_base")
    (hres : ieegDetectN1 pf sqrt p data onset sr cpm wfm = .ok inds amps data2)
    (hrow : get2 data e pr = some row)
    (hnan : (pySlice row (peakSearchStart p sr onset + 1)
      (peakSearchEnd p sr onset)).all fIsNaN = false)
    (hsel : selectPeak pf
      (zeroNaNIn row (peakSearchStart p sr onset + 1) (peakSearchEnd p sr onset))
      (peakSearchStart p sr onset) (peakSearchEnd p sr onset)
      (n1SearchStart p sr onset) (n1SearchEnd p sr onset) = .ok (some (i, m)))
    (hpol : fgt m 0 = false) (hsat : fgt (fabs m) 3000 = false)
    (hbase : (pySlice
      (zeroNaNIn row (peakSearchStart p sr onset + 1) (peakSearchEnd p sr onset))
      (baselineStart p sr onset) (baselineEnd p sr onset)).all fIsNaN = false) :
    get2 inds e pr = some (if fge (fabs m) (p.baselineThresholdFactor *
        |clampStd (sqrt (nanvar (pySlice
          (zeroNaNIn row (peakSearchStart p sr onset + 1) (peakSearchEnd p sr onset))
          (baselineStart p sr onset) (baselineEnd p sr onset))))|)
      then some (i : ℚ) else none) ∧
    get2 amps e pr = some (if fge (fabs m) (p.baselineThresholdFactor *
        |clampStd (sqrt (nanvar (pySlice
          (zeroNaNIn row (peakSearchStart p sr onset + 1) (peakSearchEnd p sr onset))
          (baselineStart p sr onset) (baselineEnd p sr onset))))|)
      then m else none) := by
  obtain ⟨c, hproc, hi, ha, hd⟩ := ieegDetectN1_ok_cell hres e pr row hrow
  have hbnds : detectBnds p sr onset =
      some (baselineStart p sr onset, baselineEnd p sr onset) := by
    simp [detectBnds, hmeth]
  rw [hbnds] at hproc
  have hc1 : (("std_base" : String) == "cross_proj") = false := by decide
  have hc2 : (("std_base" : String) == "waveform") = false := by decide
  simp only [processCell, hnan, Bool.false_eq_true, if_false, hsel,
    classifyPeak, hpol, hsat, hmeth, hc1, hc2, hbase, Except.map,
    Except.ok.injEq] at hproc
  rcases hcond : fge (fabs m) (p.baselineThresholdFactor *
      |clampStd (sqrt (nanvar (pySlice
        (zeroNaNIn row (peakSearchStart p sr onset + 1) (peakSearchEnd p sr onset))
        (baselineStart p sr onset) (baselineEnd p sr onset))))|) with _ | _ <;>
    rw [hcond] at hproc <;> subst hproc <;>
    simp [hi, ha, hcond]

/-- C1 witness: with a baseline of true standard deviation 10 (clamped to
50, so the std_base threshold is 3.4 * 50 = 170) a selected peak of
amplitude -171 is recorded with its sample index and amplitude, and a
peak of amplitude -169 is not. -/
theorem C1_std_base_threshold_witness :
    get2 (resInds (ieegDetectN1 (wPf (-171)) wSqrt wStdP [[wRow]] 5 2 none none)) 0 0
        = some (some 6) ∧
    get2 (resAmps (ieegDetectN1 (wPf (-171)) wSqrt wStdP [[wRow]] 5 2 none none)) 0 0
        = some (some (-171)) ∧
    get2 (resInds (ieegDetectN1 (wPf (-169)) wSqrt wStdP [[wRow]] 5 2 none none)) 0 0
        = some none ∧
    get2 (resAmps (ieegDetectN1 (wPf (-169)) wSqrt wStdP [[wRow]] 5 2 none none)) 0 0
        = some none := by
  have hrun171 : ieegDetectN1 (wPf (-171)) wSqrt wStdP [[wRow]] 5 2 none none
      = .ok [[some 6]] [[some (-171)]] [[wRow]] := by with_unfolding_all decide
  have hrun169 : ieegDetectN1 (wPf (-169)) wSqrt wStdP [[wRow]] 5 2 none none
      = .ok [[none]] [[none]] [[wRow]] := by with_unfolding_all decide
  have h171 := @C1_std_base_threshold (wPf (-171)) wSqrt wStdP [[wRow]] 5 2
    none none [[some 6]] [[some (-171)]] [[wRow]] 0 0 wRow 6 (some (-171))
    rfl hrun171 (by with_unfolding_all decide) (by with_unfolding_all decide)
    (by with_unfolding_all decide) (by with_unfolding_all decide)
    (by with_unfolding_all decide) (by with_unfolding_all decide)
  have h169 := @C1_std_base_threshold (wPf (-169)) wSqrt wStdP [[wRow]] 5 2
    none none [[none]] [[none]] [[wRow]] 0 0 wRow 6 (some (-169))
    rfl hrun169 (by with_unfolding_all decide) (by with_unfolding_all decide)
    (by with_unfolding_all decide) (by with_unfolding_all decide)
    (by with_unfolding_all decide) (by with_unfolding_all decide)
  rw [hrun171, hrun169]
  refine ⟨?_, ?_, ?_, ?_⟩
  · have h := h171.1
    rw [if_pos (by with_unfolding_all decide)] at h
    simpa [resInds] using h
  · have h := h171.2
    rw [if_pos (by with_unfolding_all decide)] at h
    simpa [resAmps] using h
  · have h := h169.1
    rw [if_neg (by with_unfolding_all decide)] at h
    simpa [resInds] using h
  · have h := h169.2
    rw [if_neg (by with_unfolding_all decide)] at h
    simpa [resAmps] using h

/-- C2: in ieeg_detect_n1, for every electrode/stim-pair cell and
regardless of the configured detection method, the selected
maximum-magnitude peak is never recorded as a detection when its sign is
positive (fails the negative-polarity check) or when its absolute
amplitude exceeds the hard saturation ceiling of 3000. -/
theorem C2_polarity_saturation
    {pf : List F → List (ℕ × F)} {sqrt : ℚ → ℚ} {p : DetectParams}
    {data : List (List (List F))} {onset : ℤ} {sr : ℚ}
    {cpm wfm : Option (List (List F))} {inds amps : List (List F)}
    {data2 : List (List (List F))} {e pr : ℕ} {row : List F} {i : ℤ} {m : F}
    (hres : ieegDetectN1 pf sqrt p data onset sr cpm wfm = .ok inds amps data2)
    (hrow : get2 data e pr = some row)
    (hnan : (pySlice row (peakSearchStart p sr onset + 1)
      (peakSearchEnd p sr onset)).all fIsNaN = false)
    (hsel : selectPeak pf
      (zeroNaNIn row (peakSearchStart p sr onset + 1) (peakSearchEnd p sr onset))
      (peakSearchStart p sr onset) (peakSearchEnd p sr onset)
      (n1SearchStart p sr onset) (n1SearchEnd p sr onset) = .ok (some (i, m)))
    (hbad : fgt m 0 = true ∨ fgt (fabs m) 3000 = true) :
    get2 inds e pr = some none ∧ get2 amps e pr = some none := by
  obtain ⟨c, hproc, hi, ha, hd⟩ := ieegDetectN1_ok_cell hres e pr row hrow
  simp only [processCell, hnan, Bool.false_eq_true, if_false, hsel] at hproc
  rcases hpol : fgt m 0 with _ | _
  · have hsat : fgt (fabs m) 3000 = true := by
      rcases hbad with hb | hb
      · rw [hpol] at hb; cases hb
      · exact hb
    simp only [classifyPeak, hpol, hsat, Bool.false_eq_true, if_false, if_true,
      Except.map, Except.ok.injEq] at hproc
    subst hproc
    simp [hi, ha]
  · simp only [classifyPeak, hpol, if_true, Except.map, Except.ok.injEq] at hproc
    subst hproc
    simp [hi, ha]

/-- Evaluation helper: a 1-electrode, 1-stim-pair detection run without
metric tensors is assembled from the processing of its single cell. -/
theorem ieegDetectN1_1x1 (pf : List F → List (ℕ × F)) (sqrt : ℚ → ℚ)
    (p : DetectParams) (row : List F) (onset : ℤ) (sr : ℚ) {c : F × F × List F}
    (h1 : ¬ peakSearchEnd p sr onset < peakSearchStart p sr onset)
    (h2 : ¬ (numSamples [[row]] : ℤ) < peakSearchEnd p sr onset)
    (h3 : ¬ n1SearchEnd p sr onset < n1SearchStart p sr onset)
    (h4 : (p.method == "waveform") = false)
    (h5 : (p.method == "cross_proj") = false)
    (hproc : processCell pf sqrt p (peakSearchStart p sr onset)
      (peakSearchEnd p sr onset) (n1SearchStart p sr onset)
      (n1SearchEnd p sr onset) (detectBnds p sr onset) none none row = .ok c) :
    ieegDetectN1 pf sqrt p [[row]] onset sr none none
      = .ok [[c.1]] [[c.2.1]] [[c.2.2]] := by
  unfold ieegDetectN1
  rw [if_neg h1, if_neg h2, if_neg h3]
  simp only [h4, h5, Bool.false_and, Bool.false_eq_true, if_false]
  simp only [detectCells, detectPairCells, metricCell]
  rw [hproc]
  rfl

/-- Evaluation helper: the common small facts of the wStdP/wRow fixture
family, packaged so concrete runs can be assembled by rewriting instead of
deep definitional unfolding. -/
theorem wStdP_cell_facts (m : ℚ) :
    selectPeak (wPf m) wRow 5 7 5 7 = .ok (some (6, some m)) ∧
    zeroNaNIn wRow 6 7 = wRow ∧
    ((pySlice wRow 6 7).all fIsNaN) = false := by
  refine ⟨?_, by with_unfolding_all decide, by with_unfolding_all decide⟩
  simp only [selectPeak, wPf, dropFirstSampleArtifact]
  norm_num [pymax, feq, fabs, beq_self_eq_true]

/-- C2 witness: a selected peak of amplitude -3001 (saturation) is never
classified as a response, while an otherwise identical peak of amplitude
-2999 exceeding the std_base threshold is classified as detected. -/
theorem C2_polarity_saturation_witness :
    get2 (resInds (ieegDetectN1 (wPf (-3001)) wSqrt wStdP [[wRow]] 5 2 none none)) 0 0
        = some none ∧
    get2 (resAmps (ieegDetectN1 (wPf (-3001)) wSqrt wStdP [[wRow]] 5 2 none none)) 0 0
        = some none ∧
    get2 (resInds (ieegDetectN1 (wPf (-2999)) wSqrt wStdP [[wRow]] 5 2 none none)) 0 0
        = some (some 6) ∧
    get2 (resAmps (ieegDetectN1 (wPf (-2999)) wSqrt wStdP [[wRow]] 5 2 none none)) 0 0
        = some (some (-2999)) := by
  have hps : peakSearchStart wStdP 2 5 = 5 := by with_unfolding_all decide
  have hpe : peakSearchEnd wStdP 2 5 = 7 := by with_unfolding_all decide
  have hn1s : n1SearchStart wStdP 2 5 = 5 := by with_unfolding_all decide
  have hn1e : n1SearchEnd wStdP 2 5 = 7 := by with_unfolding_all decide
  obtain ⟨hsel1, hz, hnan⟩ := wStdP_cell_facts (-3001)
  obtain ⟨hsel2, -, -⟩ := wStdP_cell_facts (-2999)
  have hm1 : (wStdP.method == "cross_proj") = false := by with_unfolding_all decide
  have hm2 : (wStdP.method == "waveform") = false := by with_unfolding_all decide
  have hclass1 : classifyPeak wSqrt wStdP (detectBnds wStdP 2 5) none none wRow 6
      (some (-3001)) = .ok (none, none) := by
    have hf1 : fgt (some (-3001) : F) 0 = false := by
      simp only [fgt]; norm_num
    have hf2 : fgt (fabs (some (-3001) : F)) 3000 = true := by
      simp only [fgt, fabs, Option.map]; norm_num
    simp only [classifyPeak, hf1, hf2, hm1, hm2, Bool.false_eq_true, if_false,
      if_true]
  have hclass2 : classifyPeak wSqrt wStdP (detectBnds wStdP 2 5) none none wRow 6
      (some (-2999)) = .ok (some 6, some (-2999)) := by
    have hf1 : fgt (some (-2999) : F) 0 = false := by
      simp only [fgt]; norm_num
    have hf2 : fgt (fabs (some (-2999) : F)) 3000 = false := by
      simp only [fgt, fabs, Option.map]; norm_num
    have hb : (pySlice wRow 3 5).all fIsNaN = false := by with_unfolding_all decide
    have hv : nanvar (pySlice wRow 3 5) = 100 := by with_unfolding_all decide
    have hsq : wSqrt 100 = 10 := by with_unfolding_all decide
    have hbnds : detectBnds wStdP 2 5 = some (3, 5) := by with_unfolding_all decide
    have hf3 : fge (fabs (some (-2999) : F))
        (wStdP.baselineThresholdFactor * |clampStd (wSqrt (nanvar (pySlice wRow 3 5)))|)
        = true := by
      rw [hv, hsq]
      simp only [fge, fabs, Option.map]
      norm_num [clampStd, wStdP]
    simp only [classifyPeak, hf1, hf2, hbnds, hm1, hm2, Bool.false_eq_true,
      if_false, hb, hf3, if_true]
    norm_num
  have hproc1 : processCell (wPf (-3001)) wSqrt wStdP (peakSearchStart wStdP 2 5)
      (peakSearchEnd wStdP 2 5) (n1SearchStart wStdP 2 5) (n1SearchEnd wStdP 2 5)
      (detectBnds wStdP 2 5) none none wRow = .ok (none, none, wRow) := by
    rw [hps, hpe, hn1s, hn1e]
    simp only [processCell]
    norm_num [hnan, hz, hsel1, hclass1, Except.map]
  have hproc2 : processCell (wPf (-2999)) wSqrt wStdP (peakSearchStart wStdP 2 5)
      (peakSearchEnd wStdP 2 5) (n1SearchStart wStdP 2 5) (n1SearchEnd wStdP 2 5)
      (detectBnds wStdP 2 5) none none wRow = .ok (some 6, some (-2999), wRow) := by
    rw [hps, hpe, hn1s, hn1e]
    simp only [processCell]
    norm_num [hnan, hz, hsel2, hclass2, Except.map]
  have hrun1 := ieegDetectN1_1x1 (wPf (-3001)) wSqrt wStdP wRow 5 2
    (by rw [hps, hpe]; norm_num) (by rw [hpe]; with_unfolding_all decide)
    (by rw [hn1s, hn1e]; norm_num) (by with_unfolding_all decide)
    (by with_unfolding_all decide) hproc1
  have hrun2 := ieegDetectN1_1x1 (wPf (-2999)) wSqrt wStdP wRow 5 2
    (by rw [hps, hpe]; norm_num) (by rw [hpe]; with_unfolding_all decide)
    (by rw [hn1s, hn1e]; norm_num) (by with_unfolding_all decide)
    (by with_unfolding_all decide) hproc2
  have h := @C2_polarity_saturation (wPf (-3001)) wSqrt wStdP [[wRow]] 5 2
    none none [[none]] [[none]] [[wRow]] 0 0 wRow 6 (some (-3001)) hrun1 rfl
    (by rw [hps, hpe]; norm_num [hnan])
    (by rw [hps, hpe, hn1s, hn1e]; norm_num [hz, hsel1])
    (Or.inr (by simp only [fgt, fabs, Option.map]; norm_num))
  rw [hrun1, hrun2]
  refine ⟨by simpa [resInds] using h.1, by simpa [resAmps] using h.2, ?_, ?_⟩ <;>
    simp [resInds, resAmps, get2]

/-- C6: the claim says that for method cross_proj the absence of the
cross-projection metric tensor (or its shape mismatch) makes the whole
detection call fail with the (None, None) error result before any
per-cell processing. The code instead validates the waveform tensor in
the cross_proj branch (detection.py lines 133-140, a copy-paste slip
contradicted by its own error messages): a call with no cross-projection
tensor but a well-shaped waveform tensor sails through validation and
runs the per-cell loop to completion, while a call with a well-shaped
cross-projection tensor and no waveform tensor is rejected. -/
theorem C6_cross_proj_metric_validation :
    ieegDetectN1 (fun _ => []) wSqrt wCrossP [[wRowNaN]] 5 2 none (some [[some 0]])
      = .ok [[none]] [[none]] [[wRowNaN]] ∧
    ieegDetectN1 (fun _ => []) wSqrt wCrossP [[wRowNaN]] 5 2 (some [[some 0]]) none
      = .retNone := by
  exact ⟨by with_unfolding_all decide, by with_unfolding_all decide⟩

/-- C9: ieeg_detect_n1 mutates its input tensor in place. In a successful
run, for every electrode/stim-pair cell: if the cell's peak-search slice
is entirely missing the row is unchanged; otherwise every NaN sample
inside the peak-search slice of the returned tensor has been overwritten
with 0 and every other sample (in particular everything outside the
peak-search window) is exactly the caller's original sample. -/
theorem C9_inplace_nan_zeroing
    {pf : List F → List (ℕ × F)} {sqrt : ℚ → ℚ} {p : DetectParams}
    {data : List (List (List F))} {onset : ℤ} {sr : ℚ}
    {cpm wfm : Option (List (List F))} {inds amps : List (List F)}
    {data2 : List (List (List F))}
    (hres : ieegDetectN1 pf sqrt p data onset sr cpm wfm = .ok inds amps data2) :
    ∀ e pr row, get2 data e pr = some row →
      ∃ row2, get2 data2 e pr = some row2 ∧
        ((pySlice row (peakSearchStart p sr onset + 1)
            (peakSearchEnd p sr onset)).all fIsNaN = true → row2 = row) ∧
        ((pySlice row (peakSearchStart p sr onset + 1)
            (peakSearchEnd p sr onset)).all fIsNaN = false →
          ∀ t, row2[t]? = (row[t]?).map (fun x =>
            if inSlicePos row.length (peakSearchStart p sr onset + 1)
                (peakSearchEnd p sr onset) t && fIsNaN x
            then some 0 else x)) := by
  intro e pr row hrow
  obtain ⟨c, hproc, -, -, hd⟩ := ieegDetectN1_ok_cell hres e pr row hrow
  have hrow2 := processCell_ok_row hproc
  refine ⟨c.2.2, hd, ?_, ?_⟩
  · intro hnan
    rw [hrow2, if_pos hnan]
  · intro hnan t
    rw [hrow2, if_neg (by simp [hnan]), zeroNaNIn_getElem?]

/-- C9 witness: with the peak-search slice covering samples 6..7 of
w9row, sample 6 (an isolated NaN) of the returned tensor has been
overwritten with 0 whereas sample 5 is unchanged, so the tensor saved
after detection differs from the one saved before exactly at the zeroed
sample. -/
theorem C9_inplace_nan_zeroing_witness :
    w9row[6]? = some none ∧
    get2 (resData (ieegDetectN1 (wPf (-171)) wSqrt w9p [[w9row]] 5 2 none none)) 0 0
      = some wRow ∧
    wRow[6]? = some (some 0) ∧
    wRow[5]? = w9row[5]? := by
  have hrun : ieegDetectN1 (wPf (-171)) wSqrt w9p [[w9row]] 5 2 none none
      = .ok [[some 6]] [[some (-171)]] [[wRow]] := by with_unfolding_all decide
  obtain ⟨row2, hd, -, hchar⟩ := C9_inplace_nan_zeroing hrun 0 0 w9row rfl
  have hr2 : row2 = wRow := by simpa [get2, eq_comm] using hd
  have h6 := hchar (by with_unfolding_all decide) 6
  rw [hr2] at h6
  refine ⟨by with_unfolding_all decide, ?_, ?_, by with_unfolding_all decide⟩
  · rw [hrun]; simp [resData, get2]
  · rw [h6]; with_unfolding_all decide

theorem dictGet_map_overwrite (k : String) (v : α) (k2 : String) :
    ∀ d : List (String × α),
      dictGet (d.map (fun kv => if kv.1 == k then (k, v) else kv)) k2 =
        if k2 = k then (if d.any (fun kv => kv.1 == k) then some v else none)
        else dictGet d k2 := by
  intro d
  induction d with
  | nil => by_cases h : k2 = k <;> simp [dictGet, h]
  | cons kv rest ih =>
    cases hk : (kv.1 == k) with
    | true =>
      have hkeq : kv.1 = k := by simpa using hk
      by_cases h2 : k2 = k
      · subst h2
        simp [dictGet, List.find?, hk, hkeq]
      · have h2b : (k == k2) = false := by
          simp only [beq_eq_false_iff_ne, ne_eq]
          exact fun h => h2 h.symm
        have h2c : (kv.1 == k2) = false := by rw [hkeq]; exact h2b
        simp only [List.map_cons, hk, if_true, dictGet, List.find?, h2b, h2c,
          List.any_cons]
        simpa [dictGet, h2] using ih
    | false =>
      cases h2 : (kv.1 == k2) with
      | true =>
        have h2eq : kv.1 = k2 := by simpa using h2
        have hne : ¬ k2 = k := by
          intro h
          rw [h2eq, h] at hk
          simp at hk
        simp [dictGet, List.find?, hk, h2, hne]
      | false =>
        simp only [List.map_cons, hk, Bool.false_eq_true, if_false, dictGet,
          List.find?, h2, List.any_cons, Bool.false_or]
        exact ih

theorem dictGet_none_of_any_false {d : List (String × α)} {k : String}
    (h : d.any (fun kv => kv.1 == k) = false) : dictGet d k = none := by
  induction d with
  | nil => rfl
  | cons kv rest ih =>
    simp only [List.any_cons, Bool.or_eq_false_iff] at h
    simp only [dictGet, List.find?, h.1]
    exact ih h.2

theorem dictGet_append_single (d : List (String × α)) (k : String) (v : α)
    (k2 : String) :
    dictGet (d ++ [(k, v)]) k2 =
      match dictGet d k2 with
      | some w => some w
      | none => if k2 = k then some v else none := by
  induction d with
  | nil =>
    by_cases h : k2 = k
    · subst h; simp [dictGet, List.find?]
    · have hb : (k == k2) = false := by
        simp only [beq_eq_false_iff_ne, ne_eq]
        exact fun hx => h hx.symm
      simp [dictGet, List.find?, hb, h]
  | cons kv rest ih =>
    cases h2 : (kv.1 == k2) with
    | true => simp [dictGet, List.find?, h2]
    | false => simpa [dictGet, List.find?, h2] using ih

theorem dictGet_dictSet (d : List (String × α)) (k : String) (v : α) (k2 : String) :
    dictGet (dictSet d k v) k2 = if k2 = k then some v else dictGet d k2 := by
  unfold dictSet
  cases hany : d.any (fun kv => kv.1 == k) with
  | true =>
    simp only [hany, if_true, dictGet_map_overwrite]
  | false =>
    simp only [hany, Bool.false_eq_true, if_false, dictGet_append_single]
    by_cases h2 : k2 = k
    · subst h2
      rw [dictGet_none_of_any_false hany]
    · cases hd : dictGet d k2 <;> simp [h2, hd]

theorem dictGet_dictDel (d : List (String × α)) (k k2 : String) :
    dictGet (dictDel d k) k2 = if k2 = k then none else dictGet d k2 := by
  induction d with
  | nil => by_cases h : k2 = k <;> simp [dictGet, dictDel, h]
  | cons kv rest ih =>
    cases hk : (kv.1 == k) with
    | true =>
      have hkeq : kv.1 = k := by simpa using hk
      by_cases h2 : k2 = k
      · subst h2
        simpa [dictDel, List.filter, hk] using ih
      · have h2c : (kv.1 == k2) = false := by
          rw [hkeq]
          simp only [beq_eq_false_iff_ne, ne_eq]
          exact fun h => h2 h.symm
        simp only [dictDel, List.filter, hk, Bool.not_true] at ih ⊢
        simpa [dictGet, List.find?, h2c, h2] using ih
    | false =>
      cases h2 : (kv.1 == k2) with
      | true =>
        have h2eq : kv.1 = k2 := by simpa using h2
        have hne : ¬ k2 = k := by
          intro h
          rw [h2eq, h] at hk
          simp at hk
        simp [dictDel, List.filter, hk, dictGet, List.find?, h2, hne]
      | false =>
        simp only [dictDel, List.filter, hk, Bool.not_false] at ih ⊢
        simpa [dictGet, List.find?, h2] using ih

theorem dictGet_foldl_dictDel (k2 : String) :
    ∀ (ks : List String) (d : List (String × α)),
      dictGet (ks.foldl dictDel d) k2 = if k2 ∈ ks then none else dictGet d k2 := by
  intro ks
  induction ks with
  | nil => intro d; simp
  | cons k rest ih =>
    intro d
    simp only [List.foldl_cons, ih, dictGet_dictDel, List.mem_cons]
    by_cases h1 : k2 ∈ rest
    · simp [h1]
    · by_cases h2 : k2 = k <;> simp [h1, h2]

theorem stimPairStep_get_other {concat : Bool} {channels : List String}
    {trials : List ((String × String) × ℚ)} {d : List (String × List ℚ)}
    {p : ℕ × ℕ} {L : String} (h : pairLabel channels p.1 p.2 ≠ L) :
    dictGet (stimPairStep concat channels trials d p) L = dictGet d L := by
  simp only [stimPairStep]
  split
  · rw [dictGet_dictSet, if_neg (fun hx => h hx.symm)]
  · rfl

theorem foldl_step_untouched {concat : Bool} {channels : List String}
    {trials : List ((String × String) × ℚ)} (L : String) :
    ∀ (idxs : List (ℕ × ℕ)) (d : List (String × List ℚ)),
      (∀ p ∈ idxs, pairLabel channels p.1 p.2 ≠ L) →
      dictGet (idxs.foldl (stimPairStep concat channels trials) d) L = dictGet d L := by
  intro idxs
  induction idxs with
  | nil => intro d _; rfl
  | cons p rest ih =>
    intro d h
    simp only [List.foldl_cons]
    rw [ih _ (fun q hq => h q (List.mem_cons_of_mem _ hq)),
      stimPairStep_get_other (h p (List.mem_cons_self _ _))]

theorem foldl_step_get {concat : Bool} {channels : List String}
    {trials : List ((String × String) × ℚ)} {L : String} {i j : ℕ} :
    ∀ (idxs : List (ℕ × ℕ)) (d : List (String × List ℚ)), (i, j) ∈ idxs →
      (∀ p ∈ idxs, pairLabel channels p.1 p.2 = L → p = (i, j)) →
      pairLabel channels i j = L →
      dictGet (idxs.foldl (stimPairStep concat channels trials) d) L =
        (if 0 < (stimPairSel concat channels trials i j).length
         then some (stimPairSel concat channels trials i j)
         else dictGet d L) := by
  intro idxs
  induction idxs with
  | nil => intro d h; simp at h
  | cons p rest ih =>
    intro d hmem huniq hL
    simp only [List.foldl_cons]
    by_cases hp : p = (i, j)
    · subst hp
      by_cases hrest : (i, j) ∈ rest
      · rw [ih _ hrest (fun q hq hlq => huniq q (List.mem_cons_of_mem _ hq) hlq) hL]
        by_cases hlen : 0 < (stimPairSel concat channels trials i j).length
        · simp [hlen]
        · simp only [hlen, if_false]
          simp only [stimPairStep]
          rw [if_neg hlen]
      · rw [foldl_step_untouched L rest _ (fun q hq hlq => by
          have := huniq q (List.mem_cons_of_mem _ hq) hlq
          exact hrest (this ▸ hq))]
        simp only [stimPairStep]
        by_cases hlen : 0 < (stimPairSel concat channels trials i j).length
        · rw [if_pos hlen, if_pos hlen, dictGet_dictSet, if_pos hL.symm]
        · rw [if_neg hlen, if_neg hlen]
    · have hne : pairLabel channels p.1 p.2 ≠ L := fun hlq =>
        hp (huniq p (List.mem_cons_self _ _) hlq)
      have hmem2 : (i, j) ∈ rest := by
        rcases List.mem_cons.mp hmem with h | h
        · exact absurd h.symm hp
        · exact h
      rw [ih _ hmem2 (fun q hq hlq => huniq q (List.mem_cons_of_mem _ hq) hlq) hL,
        stimPairStep_get_other hne]

theorem dictSet_keys_nodup {d : List (String × α)} {k : String} {v : α}
    (h : (dictKeys d).Nodup) : (dictKeys (dictSet d k v)).Nodup := by
  unfold dictSet
  cases hany : d.any (fun kv => kv.1 == k) with
  | true =>
    simp only [hany, if_true]
    have : dictKeys (d.map (fun kv => if kv.1 == k then (k, v) else kv)) = dictKeys d := by
      unfold dictKeys
      rw [List.map_map]
      apply List.map_congr_left
      intro kv _
      simp only [Function.comp]
      split
      · rename_i hkv
        simp only []
        exact (by simpa using hkv :  kv.1 = k).symm
      · rfl
    rw [this]
    exact h
  | false =>
    simp only [hany, Bool.false_eq_true, if_false]
    unfold dictKeys
    rw [List.map_append]
    simp only [List.map_cons, List.map_nil]
    rw [List.nodup_append]
    refine ⟨h, List.nodup_singleton _, ?_⟩
    intro a ha hb
    simp only [List.mem_singleton] at hb
    subst hb
    simp only [List.any_eq_false] at hany  -- hmm check lemma name
    obtain ⟨kv, hkv, hkeq⟩ := List.mem_map.mp ha
    exact absurd (by simp [hkeq] : (kv.1 == a) = true) (by simpa [hkeq] using hany kv hkv)

theorem foldl_step_keys_nodup {concat : Bool} {channels : List String}
    {trials : List ((String × String) × ℚ)} :
    ∀ (idxs : List (ℕ × ℕ)) (d : List (String × List ℚ)),
      (dictKeys d).Nodup →
      (dictKeys (idxs.foldl (stimPairStep concat channels trials) d)).Nodup := by
  intro idxs
  induction idxs with
  | nil => intro d h; exact h
  | cons p rest ih =>
    intro d h
    simp only [List.foldl_cons]
    apply ih
    simp only [stimPairStep]
    split
    · exact dictSet_keys_nodup h
    · exact h

theorem dictGet_mem {d : List (String × α)} {L : String} {v : α}
    (h : dictGet d L = some v) : (L, v) ∈ d := by
  induction d with
  | nil => simp [dictGet] at h
  | cons kv rest ih =>
    simp only [dictGet, List.find?] at h
    cases hk : (kv.1 == L) with
    | true =>
      rw [hk] at h
      simp only [Option.map_some] at h
      have h1 : kv.1 = L := by simpa using hk
      have h2 : kv.2 = v := by simpa using h
      exact List.mem_cons.mpr (Or.inl (by rw [← h1, ← h2]))
    | false =>
      rw [hk] at h
      right
      exact ih h

theorem mem_dictGet_of_nodup {d : List (String × α)}
    (hnd : (dictKeys d).Nodup) {L : String} {v : α}
    (h : (L, v) ∈ d) : dictGet d L = some v := by
  induction d with
  | nil => simp at h
  | cons kv rest ih =>
    rcases List.mem_cons.mp h with h1 | h1
    · subst h1
      simp [dictGet, List.find?]
    · have hLmem : L ∈ dictKeys rest := by
        unfold dictKeys
        exact List.mem_map.mpr ⟨(L, v), h1, rfl⟩
      have hkne : (kv.1 == L) = false := by
        unfold dictKeys at hnd
        simp only [List.map_cons, List.nodup_cons] at hnd
        simp only [beq_eq_false_iff_ne, ne_eq]
        intro hx
        exact hnd.1 (hx ▸ hLmem)
      simp only [dictGet, List.find?, hkne]
      exact ih (by
        unfold dictKeys at hnd ⊢
        simp only [List.map_cons, List.nodup_cons] at hnd
        exact hnd.2) h1

theorem buildStimPairs_get {concat : Bool} {channels : List String}
    {trials : List ((String × String) × ℚ)} {minT : ℕ} {i j : ℕ}
    (hi : i < channels.length) (hj : j < channels.length)
    (huniq : ∀ p ∈ allIndexPairs channels.length,
      pairLabel channels p.1 p.2 = pairLabel channels i j → p = (i, j)) :
    dictGet (buildStimPairs concat channels trials minT) (pairLabel channels i j) =
      (if 0 < (stimPairSel concat channels trials i j).length ∧
          minT ≤ (stimPairSel concat channels trials i j).length
       then some (stimPairSel concat channels trials i j) else none) := by
  have hmem : (i, j) ∈ allIndexPairs channels.length := by
    simp [allIndexPairs, hi, hj]
  have hnodup : (dictKeys (buildStimPairsPre concat channels trials)).Nodup :=
    foldl_step_keys_nodup _ [] (by simp [dictKeys])
  have hpre : dictGet (buildStimPairsPre concat channels trials)
      (pairLabel channels i j) =
      if 0 < (stimPairSel concat channels trials i j).length
      then some (stimPairSel concat channels trials i j) else none := by
    unfold buildStimPairsPre
    rw [foldl_step_get (allIndexPairs channels.length) [] hmem huniq rfl]
    by_cases h : 0 < (stimPairSel concat channels trials i j).length <;>
      simp [h, dictGet]
  unfold buildStimPairs
  rw [dictGet_foldl_dictDel]
  by_cases hlen : 0 < (stimPairSel concat channels trials i j).length
  · rw [if_pos hlen] at hpre
    have hmem2 : (pairLabel channels i j, stimPairSel concat channels trials i j)
        ∈ buildStimPairsPre concat channels trials := dictGet_mem hpre
    by_cases hmin : minT ≤ (stimPairSel concat channels trials i j).length
    · have hnot : pairLabel channels i j ∉
          ((buildStimPairsPre concat channels trials).filter
            (fun kv => kv.2.length < minT)).map (fun kv => kv.1) := by
        intro hin
        obtain ⟨kv, hkv, hkeq⟩ := List.mem_map.mp hin
        have hkv2 := List.mem_filter.mp hkv
        have : dictGet (buildStimPairsPre concat channels trials) kv.1 = some kv.2 :=
          mem_dictGet_of_nodup hnodup (by
            have : kv = (kv.1, kv.2) := rfl
            rw [← this]; exact hkv2.1)
        rw [hkeq, hpre] at this
        have hv : kv.2 = stimPairSel concat channels trials i j := by
          simpa using this.symm
        rw [hv] at hkv2
        have := hkv2.2
        simp only [decide_eq_true_eq] at this
        omega
      rw [if_neg hnot, hpre, if_pos ⟨hlen, hmin⟩]
    · have hin : pairLabel channels i j ∈
          ((buildStimPairsPre concat channels trials).filter
            (fun kv => kv.2.length < minT)).map (fun kv => kv.1) := by
        apply List.mem_map.mpr
        refine ⟨(pairLabel channels i j, stimPairSel concat channels trials i j),
          List.mem_filter.mpr ⟨hmem2, by simp; omega⟩, rfl⟩
      rw [if_pos hin, if_neg (fun hc => hmin hc.2)]
  · rw [if_neg hlen] at hpre
    have hnot : pairLabel channels i j ∉
        ((buildStimPairsPre concat channels trials).filter
          (fun kv => kv.2.length < minT)).map (fun kv => kv.1) := by
      intro hin
      obtain ⟨kv, hkv, hkeq⟩ := List.mem_map.mp hin
      have hkv2 := List.mem_filter.mp hkv
      have : dictGet (buildStimPairsPre concat channels trials) kv.1 = some kv.2 :=
        mem_dictGet_of_nodup hnodup (by
          have : kv = (kv.1, kv.2) := rfl
          rw [← this]; exact hkv2.1)
      rw [hkeq, hpre] at this
      cases this
    rw [if_neg hnot, hpre, if_neg (fun hc => hlen hc.1)]

/-- C3: in the stimulation-pair construction, when bidirectional
concatenation is enabled the trials stimulating channels i-j and j-i
(i < j) form a single condition named channels[i]-channels[j] (the
lower-index channel first) and the reversed name is absent; when
concatenation is disabled each ordered pair is its own condition; and in
both modes a condition is retained exactly when it has at least one trial
and its trial count is not strictly below the configured minimum.
The hypothesis hinj states that condition names identify the index pair
(automatic for distinct channel names without dashes). -/
theorem C3_stim_pair_conditions
    (channels : List String) (trials : List ((String × String) × ℚ)) (minT : ℕ)
    (i j : ℕ) (hij : i < j) (hj : j < channels.length)
    (hinj : ∀ p ∈ allIndexPairs channels.length,
      ∀ q ∈ allIndexPairs channels.length,
      pairLabel channels p.1 p.2 = pairLabel channels q.1 q.2 → p = q) :
    (dictGet (buildStimPairs true channels trials minT) (pairLabel channels i j) =
      (if 0 < ((trials.filter (fun t =>
            matchesBidir (chGet channels i) (chGet channels j) t.1)).map
            (fun t => t.2)).length ∧
          minT ≤ ((trials.filter (fun t =>
            matchesBidir (chGet channels i) (chGet channels j) t.1)).map
            (fun t => t.2)).length
       then some ((trials.filter (fun t =>
            matchesBidir (chGet channels i) (chGet channels j) t.1)).map
            (fun t => t.2))
       else none)) ∧
    (dictGet (buildStimPairs true channels trials minT) (pairLabel channels j i)
      = none) ∧
    (dictGet (buildStimPairs false channels trials minT) (pairLabel channels i j) =
      (if 0 < ((trials.filter (fun t =>
            matchesDir (chGet channels i) (chGet channels j) t.1)).map
            (fun t => t.2)).length ∧
          minT ≤ ((trials.filter (fun t =>
            matchesDir (chGet channels i) (chGet channels j) t.1)).map
            (fun t => t.2)).length
       then some ((trials.filter (fun t =>
            matchesDir (chGet channels i) (chGet channels j) t.1)).map
            (fun t => t.2))
       else none)) ∧
    (dictGet (buildStimPairs false channels trials minT) (pairLabel channels j i) =
      (if 0 < ((trials.filter (fun t =>
            matchesDir (chGet channels j) (chGet channels i) t.1)).map
            (fun t => t.2)).length ∧
          minT ≤ ((trials.filter (fun t =>
            matchesDir (chGet channels j) (chGet channels i) t.1)).map
            (fun t => t.2)).length
       then some ((trials.filter (fun t =>
            matchesDir (chGet channels j) (chGet channels i) t.1)).map
            (fun t => t.2))
       else none)) := by
  have hi : i < channels.length := Nat.lt_trans hij hj
  have hmem_ij : (i, j) ∈ allIndexPairs channels.length := by
    simp [allIndexPairs, hi, hj]
  have hmem_ji : (j, i) ∈ allIndexPairs channels.length := by
    simp [allIndexPairs, hi, hj]
  have huniq_ij : ∀ p ∈ allIndexPairs channels.length,
      pairLabel channels p.1 p.2 = pairLabel channels i j → p = (i, j) :=
    fun p hp hl => hinj p hp (i, j) hmem_ij hl
  have huniq_ji : ∀ p ∈ allIndexPairs channels.length,
      pairLabel channels p.1 p.2 = pairLabel channels j i → p = (j, i) :=
    fun p hp hl => hinj p hp (j, i) hmem_ji hl
  have hsel_t_ij : stimPairSel true channels trials i j =
      (trials.filter (fun t =>
        matchesBidir (chGet channels i) (chGet channels j) t.1)).map (fun t => t.2) := by
    simp [stimPairSel, Nat.not_lt.mpr (Nat.le_of_lt hij)]
  have hsel_t_ji : stimPairSel true channels trials j i = [] := by
    simp [stimPairSel, hij]
  have hsel_f_ij : stimPairSel false channels trials i j =
      (trials.filter (fun t =>
        matchesDir (chGet channels i) (chGet channels j) t.1)).map (fun t => t.2) := by
    simp [stimPairSel]
  have hsel_f_ji : stimPairSel false channels trials j i =
      (trials.filter (fun t =>
        matchesDir (chGet channels j) (chGet channels i) t.1)).map (fun t => t.2) := by
    simp [stimPairSel]
  refine ⟨?_, ?_, ?_, ?_⟩
  · rw [buildStimPairs_get hi hj huniq_ij, hsel_t_ij]
  · rw [buildStimPairs_get hj hi huniq_ji, hsel_t_ji]
    simp
  · rw [buildStimPairs_get hi hj huniq_ij, hsel_f_ij]
  · rw [buildStimPairs_get hj hi huniq_ji, hsel_f_ji]

/-- C3 witness: channels A and B, three A-B trials (onsets 1, 2, 3) and
two B-A trials (onsets 10, 11), minimum 5: with concatenation the single
condition A-B keeps all five onsets (exactly the minimum is retained),
the reversed name is absent; without concatenation both ordered
conditions fall below the minimum and are dropped. -/
theorem C3_stim_pair_conditions_witness :
    dictGet (buildStimPairs true ["A", "B"]
        [(("A", "B"), 1), (("A", "B"), 2), (("A", "B"), 3),
         (("B", "A"), 10), (("B", "A"), 11)] 5) "A-B"
      = some [1, 2, 3, 10, 11] ∧
    dictGet (buildStimPairs true ["A", "B"]
        [(("A", "B"), 1), (("A", "B"), 2), (("A", "B"), 3),
         (("B", "A"), 10), (("B", "A"), 11)] 5) "B-A" = none ∧
    dictGet (buildStimPairs false ["A", "B"]
        [(("A", "B"), 1), (("A", "B"), 2), (("A", "B"), 3),
         (("B", "A"), 10), (("B", "A"), 11)] 5) "A-B" = none ∧
    dictGet (buildStimPairs false ["A", "B"]
        [(("A", "B"), 1), (("A", "B"), 2), (("A", "B"), 3),
         (("B", "A"), 10), (("B", "A"), 11)] 5) "B-A" = none := by
  have h := C3_stim_pair_conditions ["A", "B"]
    [(("A", "B"), 1), (("A", "B"), 2), (("A", "B"), 3),
     (("B", "A"), 10), (("B", "A"), 11)] 5 0 1
    (by norm_num) (by norm_num) (by with_unfolding_all decide)
  obtain ⟨h1, h2, h3, h4⟩ := h
  have e1 : pairLabel ["A", "B"] 0 1 = "A-B" := by with_unfolding_all decide
  have e2 : pairLabel ["A", "B"] 1 0 = "B-A" := by with_unfolding_all decide
  rw [e1] at h1 h3
  rw [e2] at h2 h4
  refine ⟨?_, by exact h2, ?_, ?_⟩
  · rw [h1]
    with_unfolding_all decide
  · rw [h3]
    with_unfolding_all decide
  · rw [h4]
    with_unfolding_all decide

theorem foldl_append_singleton (f : α → β) :
    ∀ (l : List α) (acc : List β),
      l.foldl (fun a x => a ++ [f x]) acc = acc ++ l.map f := by
  intro l
  induction l with
  | nil => intro acc; simp
  | cons x xs ih => intro acc; simp [ih]

theorem foldl_append_pair (f g : α → β) :
    ∀ (l : List α) (acc : List β),
      l.foldl (fun a x => a ++ [f x, g x]) acc =
        acc ++ l.flatMap (fun x => [f x, g x]) := by
  intro l
  induction l with
  | nil => intro acc; simp
  | cons x xs ih => intro acc; simp [ih]

theorem foldl_append_list (f : α → List β) :
    ∀ (l : List α) (acc : List β),
      l.foldl (fun a x => a ++ f x) acc = acc ++ l.flatMap f := by
  intro l
  induction l with
  | nil => intro acc; simp
  | cons x xs ih => intro acc; simp [ih]

theorem traceByConditionTrial_eq (channels : List String) (conds : List (List ℚ))
    (sr tep0 : ℚ) (n : ℕ) :
    traceByConditionTrial channels conds sr tep0 n =
      conds.flatMap (fun onsets => onsets.map (fun o =>
        ReadEvent.rangeAll channels (trialStartSample sr tep0 o)
          (trialStartSample sr tep0 o + n))) := by
  unfold traceByConditionTrial
  simp only [foldl_append_singleton, foldl_append_list, List.nil_append]

theorem traceSubloadChannel_eq (ch : String) (conds : List (List ℚ))
    (sr tep0 bep0 : ℚ) (tn bn : ℕ) :
    traceSubloadChannel ch conds sr tep0 bep0 tn bn =
      conds.flatMap (fun onsets => onsets.flatMap (fun o =>
        [ReadEvent.range1 ch (trialStartSample sr bep0 o)
           (trialStartSample sr bep0 o + bn),
         ReadEvent.range1 ch (trialStartSample sr tep0 o)
           (trialStartSample sr tep0 o + tn)])) := by
  unfold traceSubloadChannel
  simp only [foldl_append_pair, foldl_append_list, List.nil_append]

/-- C5 counterexample: the claim assigns the by-condition-then-trial
strategy to the in-memory formats, but for data_format 0 (EDF)
load_data_epochs_averages dispatches to
__load_data_epoch_averages__by_channel_condition_trial. -/
theorem C5_strategy_dispatch_counterexample :
    ¬ loadDataEpochAveragesStrategy 0 = some AvgStrategy.byConditionTrial := by
  decide

/-- C5 (amended): for the in-memory formats (data_format 0, EDF, and 1,
BrainVision) load_data_epochs_averages uses the
by-channel-then-condition-then-trial strategy (channel is the outermost
loop, two single-channel range reads per channel-condition-trial), and
for the streaming format (data_format 2, MEF3) it uses the
by-condition-then-trial strategy (condition is the outermost loop, one
range read covering all channels per condition-trial). -/
theorem C5_strategy_dispatch :
    (loadDataEpochAveragesStrategy 0 = some AvgStrategy.byChannelConditionTrial ∧
     loadDataEpochAveragesStrategy 1 = some AvgStrategy.byChannelConditionTrial ∧
     loadDataEpochAveragesStrategy 2 = some AvgStrategy.byConditionTrial) ∧
    (∀ (channels : List String) (conds : List (List ℚ)) (sr tep0 : ℚ) (n : ℕ),
      traceByConditionTrial channels conds sr tep0 n =
        conds.flatMap (fun onsets => onsets.map (fun o =>
          ReadEvent.rangeAll channels (trialStartSample sr tep0 o)
            (trialStartSample sr tep0 o + n)))) ∧
    (∀ (channels : List String) (conds : List (List ℚ)) (sr tep0 bep0 : ℚ)
        (tn bn : ℕ),
      traceByChannelConditionTrial channels conds sr tep0 bep0 tn bn =
        channels.flatMap (fun ch => conds.flatMap (fun onsets =>
          onsets.flatMap (fun o =>
            [ReadEvent.range1 ch (trialStartSample sr bep0 o)
               (trialStartSample sr bep0 o + bn),
             ReadEvent.range1 ch (trialStartSample sr tep0 o)
               (trialStartSample sr tep0 o + tn)])))) := by
  refine ⟨⟨rfl, rfl, rfl⟩, traceByConditionTrial_eq, ?_⟩
  intro channels conds sr tep0 bep0 tn bn
  unfold traceByChannelConditionTrial
  rw [foldl_append_list]
  simp only [List.nil_append, traceSubloadChannel_eq]

theorem epochTrial_error_method0 (c : EpochCtx) (cd : List F) (n i : ℕ) (o : ℚ)
    (hm : c.outOfBoundMethod = 0)
    (hoob : trialSampleStart c o < 0 ∨ (cd.length : ℤ) < trialSampleEnd c o) :
    epochTrial c cd n i o = .error () := by
  have htolF : ¬((c.outOfBoundMethod = 1 ∧ i = 0) ∨ c.outOfBoundMethod = 2) := by omega
  have htolL : ¬((c.outOfBoundMethod = 1 ∧ i = n - 1) ∨ c.outOfBoundMethod = 2) := by omega
  simp only [epochTrial]
  by_cases h1 : trialSampleEnd c o < 0
  · rw [if_pos h1, if_neg htolF]
  · rw [if_neg h1]
    by_cases h2 : trialSampleStart c o < 0
    · simp only [if_pos h2, if_neg htolF]
    · simp only [if_neg h2]
      have h3 : (cd.length : ℤ) < trialSampleEnd c o := by
        rcases hoob with h | h
        · exact absurd h h2
        · exact h
      by_cases h4 : trialSampleStart c o > (cd.length : ℤ)
      · simp only [if_pos h4, if_neg htolL]
      · simp only [if_neg h4, if_pos (show trialSampleEnd c o > (cd.length : ℤ) from h3),
          if_neg htolL]

theorem epochTrial_error_method1_interior (c : EpochCtx) (cd : List F) (n i : ℕ) (o : ℚ)
    (hm : c.outOfBoundMethod = 1)
    (hoob : (trialSampleStart c o < 0 ∧ i ≠ 0) ∨
      ((cd.length : ℤ) < trialSampleEnd c o ∧ i ≠ n - 1)) :
    epochTrial c cd n i o = .error () := by
  have htolL : i ≠ n - 1 →
      ¬((c.outOfBoundMethod = 1 ∧ i = n - 1) ∨ c.outOfBoundMethod = 2) := by omega
  simp only [epochTrial]
  by_cases h1 : trialSampleEnd c o < 0
  · have hs : trialSampleStart c o < 0 := by
      have := trialSampleEnd c o
      simp only [trialSampleEnd] at h1
      omega
    have hne : i ≠ 0 := by
      rcases hoob with ⟨_, h⟩ | ⟨h, _⟩
      · exact h
      · exact absurd h1 (by omega)
    rw [if_pos h1, if_neg (by omega :
      ¬((c.outOfBoundMethod = 1 ∧ i = 0) ∨ c.outOfBoundMethod = 2))]
  · rw [if_neg h1]
    by_cases h2 : trialSampleStart c o < 0
    · rcases hoob with ⟨_, hne⟩ | ⟨hend, hne⟩
      · simp only [if_pos h2, if_neg (by omega :
          ¬((c.outOfBoundMethod = 1 ∧ i = 0) ∨ c.outOfBoundMethod = 2))]
      · by_cases hi0 : i = 0
        · simp only [if_pos h2,
            if_pos (show (c.outOfBoundMethod = 1 ∧ i = 0) ∨ c.outOfBoundMethod = 2 from
              Or.inl ⟨hm, hi0⟩)]
          have hsz : ¬((0 : ℤ) > (cd.length : ℤ)) := by omega
          simp only [if_neg hsz, if_pos (show trialSampleEnd c o > (cd.length : ℤ) from hend),
            if_neg (htolL hne)]
        · simp only [if_pos h2, if_neg (by omega :
            ¬((c.outOfBoundMethod = 1 ∧ i = 0) ∨ c.outOfBoundMethod = 2))]
    · have hend : (cd.length : ℤ) < trialSampleEnd c o := by
        rcases hoob with ⟨h, _⟩ | ⟨h, _⟩
        · exact absurd h h2
        · exact h
      have hne : i ≠ n - 1 := by
        rcases hoob with ⟨h, _⟩ | ⟨_, h⟩
        · exact absurd h h2
        · exact h
      simp only [if_neg h2]
      by_cases h4 : trialSampleStart c o > (cd.length : ℤ)
      · simp only [if_pos h4, if_neg (htolL hne)]
      · simp only [if_neg h4, if_pos (show trialSampleEnd c o > (cd.length : ℤ) from hend),
          if_neg (htolL hne)]

theorem epochChannelTrialsFrom_error (c : EpochCtx) (cd : List F) (n : ℕ) :
    ∀ (l : List ℚ) (start i : ℕ) (h : i < l.length),
      epochTrial c cd n (start + i) (l.get ⟨i, h⟩) = .error () →
      epochChannelTrialsFrom c cd n start l = .error () := by
  intro l
  induction l with
  | nil => intro start i h; exact absurd h (by simp)
  | cons o rest ih =>
    intro start i h herr
    simp only [epochChannelTrialsFrom]
    cases i with
    | zero =>
      simp only [List.get] at herr
      rw [show start + 0 = start from rfl] at herr
      rw [herr]
    | succ j =>
      cases ho : epochTrial c cd n start o with
      | error e => rfl
      | ok rw1 =>
        have herr2 : epochTrial c cd n (start + 1 + j)
            (rest.get ⟨j, by simpa using h⟩) = .error () := by
          rw [show start + 1 + j = start + (j + 1) by omega]
          exact herr
        rw [ih (start + 1) j (by simpa using h) herr2]

/-- C8: out-of-bound policy semantics of
__epoch_data__from_channel_data__by_trials. (1) Under method 0 (error),
any trial whose window [trial_sample_start, trial_sample_end) extends
before sample 0 or past the end of the recording makes the whole call
raise. (2) Under method 1 (first_last_only), a non-first trial
extending before the start, or a non-last trial extending past the
end, still makes the whole call raise. (3) Under method 1, a first
trial extending before the start (its end in bounds) succeeds with a
warning: positions before -trial_sample_start keep the NaN prefill and
the rest hold the recorded data. (4) Under method 1, a last trial
extending past the end (its start in bounds) succeeds with a warning:
positions from local_end on keep the NaN prefill and the positions
before hold the recorded data. (5) A fully in-bounds trial succeeds
with no warning under every policy. Baseline normalization is off
(baseline_method 0) in (3)-(5). -/
theorem C8_out_of_bound_policies :
    (∀ (c : EpochCtx) (cd : List F) (onsets : List ℚ) (i : ℕ) (h : i < onsets.length),
      c.outOfBoundMethod = 0 →
      (trialSampleStart c (onsets.get ⟨i, h⟩) < 0 ∨
        (cd.length : ℤ) < trialSampleEnd c (onsets.get ⟨i, h⟩)) →
      epochChannelTrials c cd onsets = .error ()) ∧
    (∀ (c : EpochCtx) (cd : List F) (onsets : List ℚ) (i : ℕ) (h : i < onsets.length),
      c.outOfBoundMethod = 1 →
      ((trialSampleStart c (onsets.get ⟨i, h⟩) < 0 ∧ i ≠ 0) ∨
        ((cd.length : ℤ) < trialSampleEnd c (onsets.get ⟨i, h⟩) ∧ i ≠ onsets.length - 1)) →
      epochChannelTrials c cd onsets = .error ()) ∧
    (∀ (c : EpochCtx) (cd : List F) (n : ℕ) (o : ℚ),
      c.outOfBoundMethod = 1 → c.baselineMethod = 0 →
      trialSampleStart c o < 0 → 0 ≤ trialSampleEnd c o →
      trialSampleEnd c o ≤ (cd.length : ℤ) →
      ∃ row : List F,
        epochTrial c cd n 0 o = .ok (row, true) ∧
        row.length = c.trialNumSamples ∧
        (∀ k : ℕ, k < (-(trialSampleStart c o)).toNat → row[k]? = some none) ∧
        (∀ k : ℕ, (-(trialSampleStart c o)).toNat ≤ k → k < c.trialNumSamples →
          row[k]? = some ((pySlice cd 0 (trialSampleEnd c o)).getD
            (k - (-(trialSampleStart c o)).toNat) none))) ∧
    (∀ (c : EpochCtx) (cd : List F) (n : ℕ) (o : ℚ),
      c.outOfBoundMethod = 1 → c.baselineMethod = 0 →
      0 ≤ trialSampleStart c o → trialSampleStart c o ≤ (cd.length : ℤ) →
      (cd.length : ℤ) < trialSampleEnd c o →
      ∃ row : List F,
        epochTrial c cd n (n - 1) o = .ok (row, true) ∧
        row.length = c.trialNumSamples ∧
        (∀ k : ℕ, c.trialNumSamples - (trialSampleEnd c o - (cd.length : ℤ)).toNat ≤ k →
          k < c.trialNumSamples → row[k]? = some none) ∧
        (∀ k : ℕ, k < c.trialNumSamples - (trialSampleEnd c o - (cd.length : ℤ)).toNat →
          row[k]? = some ((pySlice cd (trialSampleStart c o) (cd.length : ℤ)).getD k none))) ∧
    (∀ (c : EpochCtx) (cd : List F) (n i : ℕ) (o : ℚ),
      c.baselineMethod = 0 →
      0 ≤ trialSampleStart c o → trialSampleEnd c o ≤ (cd.length : ℤ) →
      epochTrial c cd n i o = .ok (writeSliceN (List.replicate c.trialNumSamples none) 0
        c.trialNumSamples (pySlice cd (trialSampleStart c o) (trialSampleEnd c o)), false)) := by
  refine ⟨?_, ?_, ?_, ?_, ?_⟩
  · intro c cd onsets i h hm hoob
    have herr := epochTrial_error_method0 c cd onsets.length i (onsets.get ⟨i, h⟩) hm hoob
    exact epochChannelTrialsFrom_error c cd onsets.length onsets 0 i h (by simpa using herr)
  · intro c cd onsets i h hm hoob
    have herr := epochTrial_error_method1_interior c cd onsets.length i (onsets.get ⟨i, h⟩)
      hm hoob
    exact epochChannelTrialsFrom_error c cd onsets.length onsets 0 i h (by simpa using herr)
  · intro c cd n o hm hb h1 h2 h3
    have hA : ¬ trialSampleEnd c o < 0 := by omega
    have hB : ¬ ((0 : ℤ) > (cd.length : ℤ)) := by omega
    have hC : ¬ trialSampleEnd c o > (cd.length : ℤ) := by omega
    have hD : ¬ (0 < c.baselineMethod) := by omega
    refine ⟨writeSliceN (List.replicate c.trialNumSamples none) (-(trialSampleStart c o)).toNat
      c.trialNumSamples (pySlice cd 0 (trialSampleEnd c o)), ?_, ?_, ?_, ?_⟩
    · simp [epochTrial, hA, h1, hm, hB, hC, hD, baselineAdjust, hb]
    · simp only [writeSliceN, mapWithIdx_length, List.length_replicate]
    · intro k hk
      have hkn : k < c.trialNumSamples := by
        have hle : (-(trialSampleStart c o)).toNat ≤ c.trialNumSamples := by
          simp only [trialSampleEnd] at h2; omega
        omega
      have hno : ¬ ((-(trialSampleStart c o)).toNat ≤ k ∧ k < c.trialNumSamples) := by omega
      simp [writeSliceN, mapWithIdx_getElem?, List.getElem?_replicate, hkn, hno]
      intro hcon
      exact absurd hcon (by omega)
    · intro k hk1 hk2
      simp [writeSliceN, mapWithIdx_getElem?, List.getElem?_replicate, hk1, hk2]
      intro hcon
      exact absurd hcon (by omega)
  · intro c cd n o hm hb h1 h2 h3
    have hA : ¬ trialSampleEnd c o < 0 := by omega
    have hB : ¬ trialSampleStart c o < 0 := by omega
    have hC : ¬ trialSampleStart c o > (cd.length : ℤ) := by omega
    have hD : trialSampleEnd c o > (cd.length : ℤ) := h3
    have hE : ¬ (0 < c.baselineMethod) := by omega
    refine ⟨writeSliceN (List.replicate c.trialNumSamples none) 0
      (c.trialNumSamples - (trialSampleEnd c o - (cd.length : ℤ)).toNat)
      (pySlice cd (trialSampleStart c o) (cd.length : ℤ)), ?_, ?_, ?_, ?_⟩
    · simp [epochTrial, hA, hB, hC, hD, hE, hm, baselineAdjust, hb]
    · simp only [writeSliceN, mapWithIdx_length, List.length_replicate]
    · intro k hk1 hk2
      have hno : ¬ ((0 : ℕ) ≤ k ∧
          k < c.trialNumSamples - (trialSampleEnd c o - (cd.length : ℤ)).toNat) := by omega
      simp [writeSliceN, mapWithIdx_getElem?, List.getElem?_replicate, hk2, hno]
      intro hcon
      exact absurd hcon (by omega)
    · intro k hk
      have hkn : k < c.trialNumSamples := by omega
      simp [writeSliceN, mapWithIdx_getElem?, List.getElem?_replicate, hkn, hk]
      intro hcon
      exact absurd hcon (by omega)
  · intro c cd n i o hb h1 h2
    have hse : trialSampleStart c o ≤ trialSampleEnd c o := by
      simp only [trialSampleEnd]; omega
    have hA : ¬ trialSampleEnd c o < 0 := by omega
    have hB : ¬ trialSampleStart c o < 0 := by omega
    have hC : ¬ trialSampleStart c o > (cd.length : ℤ) := by omega
    have hD : ¬ trialSampleEnd c o > (cd.length : ℤ) := by omega
    have hE : ¬ (0 < c.baselineMethod) := by omega
    simp [epochTrial, hA, hB, hC, hD, hE, baselineAdjust, hb]

/-- C8 witness: with sampling rate 1, trial epoch start 0, 2 samples
per trial and a 2-sample recording: onset -1 under policy error fails;
under first_last_only onset -1 as a second trial fails, as a first
trial succeeds with a warning; onset 1 as a last trial succeeds with a
warning; onset 0 is in bounds and succeeds without warning. -/
theorem C8_out_of_bound_policies_witness :
    (epochChannelTrials (EpochCtx.mk 1 0 0 2 0 0 0) [some 1, some 2] [-1] =
      .error ()) ∧
    (epochChannelTrials (EpochCtx.mk 1 0 0 2 0 0 1) [some 1, some 2] [0, -1] =
      .error ()) ∧
    (∃ row : List F, epochTrial (EpochCtx.mk 1 0 0 2 0 0 1) [some 1, some 2] 1 0 (-1) =
      .ok (row, true)) ∧
    (∃ row : List F, epochTrial (EpochCtx.mk 1 0 0 2 0 0 1) [some 1, some 2] 1 0 1 =
      .ok (row, true)) ∧
    (epochTrial (EpochCtx.mk 1 0 0 2 0 0 1) [some 1, some 2] 1 0 0 =
      .ok (writeSliceN (List.replicate 2 none) 0 2 (pySlice [some 1, some 2]
        (trialSampleStart (EpochCtx.mk 1 0 0 2 0 0 1) 0)
        (trialSampleEnd (EpochCtx.mk 1 0 0 2 0 0 1) 0)), false)) := by
  refine ⟨?_, ?_, ?_, ?_, ?_⟩
  · exact C8_out_of_bound_policies.1 (EpochCtx.mk 1 0 0 2 0 0 0) [some 1, some 2]
      [-1] 0 (by decide) rfl (Or.inl (by with_unfolding_all decide))
  · exact C8_out_of_bound_policies.2.1 (EpochCtx.mk 1 0 0 2 0 0 1) [some 1, some 2]
      [0, -1] 1 (by decide) rfl (Or.inl ⟨by with_unfolding_all decide, by decide⟩)
  · obtain ⟨row, hr, -, -, -⟩ := C8_out_of_bound_policies.2.2.1
      (EpochCtx.mk 1 0 0 2 0 0 1) [some 1, some 2] 1 (-1) rfl rfl
      (by with_unfolding_all decide) (by with_unfolding_all decide)
      (by with_unfolding_all decide)
    exact ⟨row, hr⟩
  · obtain ⟨row, hr, -, -, -⟩ := C8_out_of_bound_policies.2.2.2.1
      (EpochCtx.mk 1 0 0 2 0 0 1) [some 1, some 2] 1 1 rfl rfl
      (by with_unfolding_all decide) (by with_unfolding_all decide)
      (by with_unfolding_all decide)
    exact ⟨row, hr⟩
  · exact C8_out_of_bound_policies.2.2.2.2 (EpochCtx.mk 1 0 0 2 0 0 1) [some 1, some 2]
      1 0 0 rfl (by with_unfolding_all decide) (by with_unfolding_all decide)

/-- C10: metric_cross_proj is total exactly under the baseline
normalization precondition: the call succeeds (returning the
t-statistic of the upper-triangle projection values) if and only if
trials.baseline_norm lower-cases to mean, average or median; for any
other mode no metric_data is assigned and the call raises (models the
UnboundLocalError). Moreover an exactly-zero per-trial L2 norm is
replaced by NaN before the division. -/
theorem C10_cross_proj_totality :
    (∀ (sqrt : ℚ → ℚ) (sr tep0 cpe0 cpe1 : ℚ) (bn : String)
        (data baseline : List (List F)),
      exceptIsOk (metric_cross_proj sqrt sr tep0 cpe0 cpe1 bn data baseline) = true ↔
        (bn.toLower = "mean" ∨ bn.toLower = "average" ∨ bn.toLower = "median")) ∧
    (∀ (norms : List F) (i : ℕ),
      norms[i]? = some (some 0) → (zeroToNaN norms)[i]? = some none) := by
  constructor
  · intro sqrt sr tep0 cpe0 cpe1 bn data baseline
    simp only [metric_cross_proj, crossProjMetricData]
    by_cases h1 : bn.toLower = "mean" ∨ bn.toLower = "average"
    · rw [if_pos h1]
      simp only [exceptIsOk]
      constructor
      · intro _
        rcases h1 with h | h
        · exact Or.inl h
        · exact Or.inr (Or.inl h)
      · intro _; trivial
    · rw [if_neg h1]
      by_cases h2 : bn.toLower = "median"
      · rw [if_pos h2]
        simp only [exceptIsOk]
        exact ⟨fun _ => Or.inr (Or.inr h2), fun _ => trivial⟩
      · rw [if_neg h2]
        simp only [exceptIsOk]
        push_neg at h1
        constructor
        · intro hfalse; exact absurd hfalse (by simp)
        · intro hc
          rcases hc with h | h | h
          · exact absurd h h1.1
          · exact absurd h h1.2
          · exact absurd h h2
  · intro norms i h
    simp only [zeroToNaN, List.getElem?_map, h, Option.map_some]
    simp

/-- C10 witness: with baseline_norm "None" (spec default spelling) the
call fails; with "mean" it succeeds; and a concrete zero norm is
turned into NaN. -/
theorem C10_cross_proj_totality_witness :
    (exceptIsOk (metric_cross_proj wSqrt 1 0 0 1 "None"
        [[some 1]] [[some 0]]) = true ↔
      ("None".toLower = "mean" ∨ "None".toLower = "average" ∨
        "None".toLower = "median")) ∧
    (zeroToNaN [some 0])[0]? = some none :=
  ⟨C10_cross_proj_totality.1 wSqrt 1 0 0 1 "None" [[some 1]] [[some 0]],
   C10_cross_proj_totality.2 [some 0] 0 (by rfl)⟩

/-- C7: load_config replaces the module-global configuration only when
every step succeeds and True is returned (the global then holds
exactly the loaded, validated configuration); in every other outcome
(unreadable or unparseable file, failed check, or an exception
escaping the load) the global is exactly what it was before the call.
The code does not, however, always return failure on a bad file: a
syntactically valid file that omits the std_base entries (such as the
empty object, with the default method std_base) makes the final
validation raise KeyError instead of returning False, because
load_config drops the std_base defaults and recreates that
sub-dictionary with only the keys present in the file. -/
theorem C7_load_config_atomicity :
    (∀ (g : Config) (j : Option JVal),
      (load_config_model g j).2 ≠ LoadOutcome.retTrue → (load_config_model g j).1 = g) ∧
    (∀ (g : Config) (jv : JVal),
      (load_config_model g (some jv)).2 = LoadOutcome.retTrue →
        loadFromJson jv = .ok (load_config_model g (some jv)).1 ∧
        __check_config (load_config_model g (some jv)).1 = .ok true) ∧
    (∀ g : Config, load_config_model g (some (.jobj [])) = (g, .raised)) := by
  refine ⟨?_, ?_, ?_⟩
  · intro g j h
    cases j with
    | none => rfl
    | some jv =>
      cases hl : loadFromJson jv with
      | error e => cases e <;> simp [load_config_model, hl]
      | ok cfg => exact absurd (by simp [load_config_model, hl]) h
  · intro g jv h
    cases hl : loadFromJson jv with
    | error e => cases e <;> simp [load_config_model, hl] at h
    | ok cfg =>
      have h1 : (load_config_model g (some jv)).1 = cfg := by
        simp [load_config_model, hl]
      rw [h1]
      refine ⟨rfl, ?_⟩
      unfold loadFromJson at hl
      cases hp : loadPipeline jv with
      | error e => simp [hp] at hl
      | ok cfg2 =>
        rw [hp] at hl
        cases hc : __check_config cfg2 with
        | error u => simp [hc] at hl
        | ok b =>
          cases b
          · simp [hc] at hl
          · simp only [hc, Except.ok.injEq] at hl
            subst hl
            exact hc
  · intro g
    have h : loadFromJson (.jobj []) = .error .raised := by with_unfolding_all decide
    simp [load_config_model, h]

/-- C7 witness: a failed read (no parsed JSON) leaves the default
global in place; a file supplying the std_base entries loads,
validates and becomes the new global; the empty object makes the call
raise while leaving the global unchanged. -/
theorem C7_load_config_atomicity_witness :
    ((load_config_model defaultConfig none).1 = defaultConfig) ∧
    (loadFromJson wJstd = .ok (load_config_model defaultConfig (some wJstd)).1 ∧
      __check_config (load_config_model defaultConfig (some wJstd)).1 = .ok true) ∧
    (load_config_model defaultConfig (some (.jobj [])) = (defaultConfig, .raised)) :=
  ⟨C7_load_config_atomicity.1 defaultConfig none (by with_unfolding_all decide),
   C7_load_config_atomicity.2.1 defaultConfig wJstd (by with_unfolding_all decide),
   C7_load_config_atomicity.2.2 defaultConfig⟩

/-- C4: the write/load round-trip is broken for every configuration,
including the default configuration, which passes all validation
checks: write_config's hand-built template omits the comma after the
line_noise_removal line and leaves a comma before the closing brace of
the preprocess object, so the written file is not valid JSON; loading
it back fails at the JSON-parse step (returning False) and leaves the
live configuration untouched, instead of reproducing it. -/
theorem C4_config_round_trip :
    __check_config defaultConfig = .ok true ∧
    (exceptToOption (writeConfigFile defaultConfig)).map
      (fun s => (jsonParse s).isNone) = some true ∧
    (∀ g : Config,
      (exceptToOption (writeConfigFile defaultConfig)).map
        (fun s => load_config_model g (jsonParse s)) = some (g, .retFalse)) := by
  refine ⟨by with_unfolding_all decide, by with_unfolding_all decide, ?_⟩
  intro g
  have h : (exceptToOption (writeConfigFile defaultConfig)).map
      (fun s => (jsonParse s).isNone) = some true := by with_unfolding_all decide
  cases hw : writeConfigFile defaultConfig with
  | error e => rw [hw] at h; simp [exceptToOption] at h
  | ok s =>
    rw [hw] at h
    simp only [exceptToOption] at h ⊢
    simp at h
    simp [load_config_model, h]

end ERDetect
